import Mathlib

/-!
Verification model of the purity-scanner scan orchestrator
(src/ml-service/src/core/scan_orchestrator.py).

Shallow embedding conventions:
* Python floats are modelled as exact rationals.  The NaN "missing" sentinel
  (np.nan) is modelled as the value of an Option being none, both in the
  result grid and in optional ScanPoint fields.
* np.arange (start, stop, step) is modelled with numpy's documented length
  rule: the number of samples is the ceiling of (stop - start) / step
  (zero when nonpositive), each sample being start + i * step.
* The asynchronous environment (hardware outcomes, inference outcomes, the
  asynchronously mutated cancel flag, wall-clock readings) is an explicit
  ScanEnv record.  Outcomes are keyed by the number of points completed so
  far, which uniquely identifies each visited cell because the source
  increments completed_points exactly once per visited cell.
* The pause busy-wait loop (while pause_requested and not cancel_requested:
  sleep) only delays execution; its sole externally visible effect is the
  value of cancel_requested when the per-row check block finishes, which is
  what ScanEnv.cancel_at_check returns.  A pause that never resumes (the
  loop never terminating) is outside the model.
* status-query helpers are modelled as state-passing functions returning the
  (possibly unchanged) orchestrator, so that absence of mutation is a
  provable statement rather than a typing artifact.
-/

namespace PurityScanner

/-- Scan lifecycle states (class ScanStatus). -/
inductive ScanStatus where
  | IDLE
  | RUNNING
  | PAUSED
  | COMPLETED
  | ERROR
  | CANCELLED
deriving DecidableEq, Repr

/-- Parameters for a 2D scan (dataclass ScanParameters). -/
structure ScanParameters where
  x_start : ℚ
  y_start : ℚ
  x_end : ℚ
  y_end : ℚ
  step_x : ℚ
  step_y : ℚ
  integration_time : ℚ := mkRat 1 10
  model_id : String := "default"
  overlap_percent : ℚ := 0
  serpentine : Bool := true
  batch_size : Nat := 1
deriving DecidableEq, Repr

/-- Single scan point data (dataclass ScanPoint).  none models both an
unset Python None field and the NaN sentinel. -/
structure ScanPoint where
  x : ℚ
  y : ℚ
  wavelengths : Option (List ℚ) := none
  intensities : Option (List ℚ) := none
  purity_score : Option ℚ := none
  confidence : Option ℚ := none
  timestamp : Option ℚ := none
  error : Option String := none
deriving DecidableEq, Repr

/-- Complete scan result (dataclass ScanResult).  The grid rows are lists of
optional purity values; none is the NaN missing sentinel. -/
structure ScanResult where
  parameters : ScanParameters
  grid : List (List (Option ℚ))
  x_positions : List ℚ
  y_positions : List ℚ
  points : List ScanPoint
  status : ScanStatus
  start_time : ℚ
  end_time : Option ℚ := none
  total_points : Nat := 0
  completed_points : Nat := 0
  error_message : Option String := none
deriving DecidableEq, Repr

/-- Orchestrator state fields (class ScanOrchestrator). -/
structure Orchestrator where
  current_scan : Option ScanResult := none
  status : ScanStatus := ScanStatus.IDLE
  cancel_requested : Bool := false
  pause_requested : Bool := false
deriving DecidableEq, Repr

/-- Stage travel limits as returned by stage.get_limits(). -/
structure StageLimits where
  x_min : ℚ
  x_max : ℚ
  y_min : ℚ
  y_max : ℚ
deriving DecidableEq, Repr

/-- Environment of one start_scan call: device and inference outcomes and the
asynchronously set cancellation flag, keyed by the completed-point count at
the moment the source performs the corresponding call or check. -/
structure ScanEnv where
  limits : StageLimits
  /-- some e when _prepare_hardware raises with message e. -/
  prepare_error : Option String := none
  /-- Outcome of stage.move_abs plus spectrometer.read_spectrum for the n-th
  visited cell: either the acquired (wavelengths, intensities) pair or the
  message of the exception raised. -/
  acquire : Nat → Except String (List ℚ × List ℚ)
  /-- Outcome of inference_engine.predict for the point acquired as the n-th
  visited cell: either (purity_percentage, confidence_score) or the message
  of the exception raised. -/
  predict : Nat → Except String (ℚ × ℚ)
  /-- Value of the asynchronously mutated cancel_requested flag when the
  per-row pause/cancel check block finishes with n points completed. -/
  cancel_at_check : Nat → Bool
  /-- time.time() at scan start. -/
  start_time : ℚ := 0
  /-- time.time() at scan finalization. -/
  end_time : ℚ := 0

/-- Rational addition computed through mkRat.  The standard Rat.add is
marked irreducible, which blocks kernel evaluation of concrete scans;
qAdd_eq below proves this equals ordinary addition. -/
def qAdd (a b : ℚ) : ℚ := mkRat (a.num * b.den + b.num * a.den) (a.den * b.den)

/-- The ceiling of a rational computed through integer division;
qCeil_eq below proves this equals Int.ceil. -/
def qCeil (q : ℚ) : Int := -((-q).num / (((-q).den : Int)))

/-- Epsilon added to the arange upper bound (the 1e-9 literal). -/
def eps : ℚ := mkRat 1 1000000000

instance {ε α : Type _} [DecidableEq ε] [DecidableEq α] :
    DecidableEq (Except ε α) := fun a b =>
  match a, b with
  | Except.ok x, Except.ok y =>
    if h : x = y then isTrue (h ▸ rfl)
    else isFalse (fun hc => h (Except.ok.inj hc))
  | Except.error x, Except.error y =>
    if h : x = y then isTrue (h ▸ rfl)
    else isFalse (fun hc => h (Except.error.inj hc))
  | Except.ok _, Except.error _ => isFalse (fun hc => Except.noConfusion hc)
  | Except.error _, Except.ok _ => isFalse (fun hc => Except.noConfusion hc)

/-- Number of samples of np.arange (start, stop, step): the ceiling of
(stop - start) / step, clamped at zero.  The quotient is formed on raw
numerators and denominators so that concrete scans reduce in the kernel;
arangeLen_eq_ceil below proves it equal to the ceiling specification. -/
def arangeLen (start stop step : ℚ) : Nat :=
  (qCeil (Rat.divInt ((stop.num * start.den - start.num * stop.den) * step.den)
    ((stop.den * start.den) * step.num))).toNat

/-- np.arange (start, stop, step): samples start + i * step for i below
arangeLen. -/
def arange (start stop step : ℚ) : List ℚ :=
  (List.range (arangeLen start stop step)).map
    (fun (i : Nat) => start + (i : ℚ) * step)

/-- _validate_scan_parameters.  The source interpolates the offending values
into the two stage-limit messages; the fixed prefixes are kept here, each
branch raising a distinct message. -/
def validate_scan_parameters (limits : StageLimits) (p : ScanParameters) :
    Except String Unit :=
  if p.x_start ≥ p.x_end then Except.error "x_start must be less than x_end"
  else if p.y_start ≥ p.y_end then Except.error "y_start must be less than y_end"
  else if p.step_x ≤ 0 ∨ p.step_y ≤ 0 then Except.error "Step sizes must be positive"
  else if p.integration_time ≤ 0 then Except.error "Integration time must be positive"
  else if ¬(0 ≤ p.overlap_percent ∧ p.overlap_percent ≤ 100) then
    Except.error "Overlap percent must be between 0 and 100"
  else if ¬(limits.x_min ≤ p.x_start ∧ p.x_start ≤ limits.x_max ∧
            limits.x_min ≤ p.x_end ∧ p.x_end ≤ limits.x_max) then
    Except.error "X range outside stage limits"
  else if ¬(limits.y_min ≤ p.y_start ∧ p.y_start ≤ limits.y_max ∧
            limits.y_min ≤ p.y_end ∧ p.y_end ≤ limits.y_max) then
    Except.error "Y range outside stage limits"
  else Except.ok ()

/-- Mutable state of _execute_scan: the fields of current_scan the loop
mutates, the local batch buffer, and the count of throttled progress
notifications.  A batch entry (n, point, yi, col) carries the visit index n
used to key ScanEnv outcomes. -/
structure ExecState where
  grid : List (List (Option ℚ))
  points : List ScanPoint
  batch : List (Nat × ScanPoint × Nat × Nat)
  completed : Nat
  notifies : Nat
deriving DecidableEq, Repr

/-- self.current_scan.grid[r][c] = v (out-of-range indices leave the grid
unchanged, which the source never exercises). -/
def setCell (g : List (List (Option ℚ))) (r c : Nat) (v : Option ℚ) :
    List (List (Option ℚ)) :=
  g.set r ((g.getD r []).set c v)

/-- The storage column of traversal index xi in row yi
(scan_orchestrator.py line 274). -/
def colOf (p : ScanParameters) (nx yi xi : Nat) : Nat :=
  if p.serpentine && yi % 2 == 1 then nx - 1 - xi else xi

/-- The enumerated x iterator of row yi (lines 266-270): odd serpentine rows
enumerate the reversed x positions. -/
def rowIter (p : ScanParameters) (xs : List ℚ) (yi : Nat) : List (Nat × ℚ) :=
  if p.serpentine && yi % 2 == 1 then xs.reverse.enum else xs.enum

/-- The per-point predict calls of _process_batch, issued sequentially in
batch order; the first exception aborts the whole flush (the source
accumulates scores in lists that are discarded when an exception escapes to
the flush-level handler).  A point without raw spectra gets NaN scores
without calling predict; both the single-spectrum branch and the general
branch of the source issue one predict call per point with spectra. -/
def runPredicts (env : ScanEnv) :
    List (Nat × ScanPoint × Nat × Nat) → Except String (List (Option ℚ × Option ℚ))
  | [] => Except.ok []
  | (n, pt, _, _) :: rest =>
    if pt.wavelengths.isSome ∧ pt.intensities.isSome then
      match env.predict n with
      | Except.error e => Except.error e
      | Except.ok pc =>
        match runPredicts env rest with
        | Except.error e => Except.error e
        | Except.ok tail => Except.ok ((some pc.1, some pc.2) :: tail)
    else
      match runPredicts env rest with
      | Except.error e => Except.error e
      | Except.ok tail => Except.ok ((none, none) :: tail)

/-- The result-update loop of _process_batch on success (lines 367-375):
each point receives its scores, its grid cell is written with its purity
value, and it is appended to points, in batch order. -/
def applyScores :
    List ((Nat × ScanPoint × Nat × Nat) × (Option ℚ × Option ℚ)) →
    List (List (Option ℚ)) → List ScanPoint →
    List (List (Option ℚ)) × List ScanPoint
  | [], grid, points => (grid, points)
  | (b, sc) :: rest, grid, points =>
    applyScores rest (setCell grid b.2.2.1 b.2.2.2 sc.1)
      (points ++ [{ b.2.1 with purity_score := sc.1, confidence := sc.2 }])

/-- The exception handler of _process_batch (lines 377-383): every buffered
point is marked with the same error, its grid cell set to the NaN sentinel,
and appended to points, in batch order. -/
def markErrors (e : String) :
    List (Nat × ScanPoint × Nat × Nat) →
    List (List (Option ℚ)) → List ScanPoint →
    List (List (Option ℚ)) × List ScanPoint
  | [], grid, points => (grid, points)
  | b :: rest, grid, points =>
    markErrors e rest (setCell grid b.2.2.1 b.2.2.2 none)
      (points ++ [{ b.2.1 with error := some e }])

/-- _process_batch: empty buffers return immediately; otherwise the predict
calls run sequentially and either every point is scored and stored, or the
first exception sends the whole batch to the error handler. -/
def process_batch (env : ScanEnv) (batch : List (Nat × ScanPoint × Nat × Nat))
    (grid : List (List (Option ℚ))) (points : List ScanPoint) :
    List (List (Option ℚ)) × List ScanPoint :=
  match batch with
  | [] => (grid, points)
  | b :: rest =>
    match runPredicts env (b :: rest) with
    | Except.ok scores => applyScores ((b :: rest).zip scores) grid points
    | Except.error e => markErrors e (b :: rest) grid points

/-- The body of the inner loop of _execute_scan for one cell (xi, x) of row
(yi, y): move, settle, acquire, batch, flush when the buffer is full or the
cell is the last of the whole grid, count the cell, and maybe notify; an
exception from move or acquire instead records an error point carrying only
coordinates, error and timestamp, writes the NaN sentinel, and still counts
the cell.  The point timestamp is the visit index (the model clock). -/
def execCell (env : ScanEnv) (p : ScanParameters) (nx ny yi : Nat) (y : ℚ)
    (xi : Nat) (x : ℚ) (st : ExecState) : ExecState :=
  let col := colOf p nx yi xi
  match env.acquire st.completed with
  | Except.error e =>
    { st with
      points := st.points ++ [{ x := x, y := y, error := some e,
                                timestamp := some (st.completed : ℚ) }],
      grid := setCell st.grid yi col none,
      completed := st.completed + 1 }
  | Except.ok wi =>
    let pt : ScanPoint :=
      { x := x, y := y, wavelengths := some wi.1, intensities := some wi.2,
        timestamp := some (st.completed : ℚ) }
    let batch2 := st.batch ++ [(st.completed, pt, yi, col)]
    let st2 :=
      if batch2.length ≥ p.batch_size ∨ (yi = ny - 1 ∧ xi = nx - 1) then
        let gp := process_batch env batch2 st.grid st.points
        { st with grid := gp.1, points := gp.2, batch := [] }
      else
        { st with batch := batch2 }
    let st3 := { st2 with completed := st2.completed + 1 }
    if st3.completed % max 1 (nx * ny / 20) = 0 then
      { st3 with notifies := st3.notifies + 1 }
    else st3

/-- The inner loop of _execute_scan over the cells of one row.  The source
performs no pause or cancel check inside this loop. -/
def execRow (env : ScanEnv) (p : ScanParameters) (nx ny yi : Nat) (y : ℚ) :
    List (Nat × ℚ) → ExecState → ExecState
  | [], st => st
  | (xi, x) :: rest, st =>
    execRow env p nx ny yi y rest (execCell env p nx ny yi y xi x st)

/-- The outer loop of _execute_scan over the enumerated rows: each row is
preceded by the pause wait and the cancel check; an observed cancellation
breaks out, dropping whatever is still in the batch buffer. -/
def execRows (env : ScanEnv) (p : ScanParameters) (xs : List ℚ) (nx ny : Nat) :
    List (Nat × ℚ) → ExecState → ExecState
  | [], st => st
  | (yi, y) :: rest, st =>
    if env.cancel_at_check st.completed then st
    else execRows env p xs nx ny rest
      (execRow env p nx ny yi y (rowIter p xs yi) st)

/-- The grid allocated by start_scan: np.full ((ny, nx), np.nan). -/
def initial_grid (nx ny : Nat) : List (List (Option ℚ)) :=
  List.replicate ny (List.replicate nx none)

/-- Initial state of _execute_scan. -/
def initState (nx ny : Nat) : ExecState :=
  { grid := initial_grid nx ny, points := [], batch := [], completed := 0,
    notifies := 0 }

/-- start_scan: reject when not IDLE, validate, build the grid and the
RUNNING result, prepare hardware (ERROR path on failure), run the traversal,
then finalize.  The source finalizes the non-exception path unconditionally
with status COMPLETED (line 166), also when the traversal loop stopped
because of a cancellation; asynchronous flag mutations performed by
cancel_scan on the orchestrator object are modelled through
env.cancel_at_check and are not reflected in the returned flag fields. -/
def start_scan (env : ScanEnv) (o : Orchestrator) (p : ScanParameters) :
    Orchestrator × Except String ScanResult :=
  if o.status ≠ ScanStatus.IDLE then
    (o, Except.error "Cannot start scan: current status is not idle")
  else
    match validate_scan_parameters env.limits p with
    | Except.error e => (o, Except.error e)
    | Except.ok _ =>
      let xs := arange p.x_start (qAdd p.x_end eps) p.step_x
      let ys := arange p.y_start (qAdd p.y_end eps) p.step_y
      let nx := xs.length
      let ny := ys.length
      let scan0 : ScanResult :=
        { parameters := p, grid := initial_grid nx ny, x_positions := xs,
          y_positions := ys, points := [], status := ScanStatus.RUNNING,
          start_time := env.start_time, total_points := nx * ny,
          completed_points := 0 }
      match env.prepare_error with
      | some e =>
        ({ o with
           current_scan := some { scan0 with
             status := ScanStatus.ERROR
             error_message := some e
             end_time := some env.end_time },
           status := ScanStatus.IDLE, cancel_requested := false,
           pause_requested := false },
         Except.error e)
      | none =>
        let fin := execRows env p xs nx ny ys.enum (initState nx ny)
        let scanF : ScanResult :=
          { scan0 with
            grid := fin.grid
            points := fin.points
            completed_points := fin.completed
            status := ScanStatus.COMPLETED
            end_time := some env.end_time }
        ({ o with
           current_scan := some scanF
           status := ScanStatus.IDLE
           cancel_requested := false
           pause_requested := false },
         Except.ok scanF)

/-- Number of progress notifications emitted by one start_scan call: none
when the call is rejected (the rejection happens before the try block whose
finally clause notifies), one for the ERROR path, and the throttled count
plus the unconditional final one otherwise. -/
def scanNotifications (env : ScanEnv) (o : Orchestrator) (p : ScanParameters) :
    Nat :=
  if o.status ≠ ScanStatus.IDLE then 0
  else
    match validate_scan_parameters env.limits p with
    | Except.error _ => 0
    | Except.ok _ =>
      match env.prepare_error with
      | some _ => 1
      | none =>
        let xs := arange p.x_start (qAdd p.x_end eps) p.step_x
        let ys := arange p.y_start (qAdd p.y_end eps) p.step_y
        (execRows env p xs xs.length ys.length ys.enum
          (initState xs.length ys.length)).notifies + 1

/-- pause_scan: only from RUNNING. -/
def pause_scan (o : Orchestrator) : Orchestrator :=
  if o.status = ScanStatus.RUNNING then
    { o with pause_requested := true, status := ScanStatus.PAUSED }
  else o

/-- resume_scan: only from PAUSED. -/
def resume_scan (o : Orchestrator) : Orchestrator :=
  if o.status = ScanStatus.PAUSED then
    { o with pause_requested := false, status := ScanStatus.RUNNING }
  else o

/-- cancel_scan at wall-clock time t: from RUNNING or PAUSED, set the flag,
stamp the current result CANCELLED with an end_time, and return to IDLE. -/
def cancel_scan (t : ℚ) (o : Orchestrator) : Orchestrator :=
  if o.status = ScanStatus.RUNNING ∨ o.status = ScanStatus.PAUSED then
    { o with
      cancel_requested := true
      current_scan := o.current_scan.map
        (fun r => { r with
          status := ScanStatus.CANCELLED
          end_time := some t })
      status := ScanStatus.IDLE }
  else o

/-- get_current_result, state-passing to make absence of mutation provable. -/
def get_current_result (o : Orchestrator) : Option ScanResult × Orchestrator :=
  (o.current_scan, o)

/-- The dictionary returned by get_scan_status. -/
structure ScanStatusReport where
  status : ScanStatus
  progress : Option ℚ := none
  completed_points : Option Nat := none
  total_points : Option Nat := none
  elapsed_time : Option ℚ := none
  error_message : Option String := none
deriving DecidableEq, Repr

/-- get_scan_status at wall-clock time now, state-passing. -/
def get_scan_status (now : ℚ) (o : Orchestrator) :
    ScanStatusReport × Orchestrator :=
  match o.current_scan with
  | none => ({ status := o.status }, o)
  | some r =>
    ({ status := o.status,
       progress := some (if 0 < r.total_points then
         (r.completed_points : ℚ) / (r.total_points : ℚ) else 0),
       completed_points := some r.completed_points,
       total_points := some r.total_points,
       elapsed_time := some (now - r.start_time),
       error_message := r.error_message }, o)

/-- The total-point formula stated by the spec sentence of claim C3,
written from the words of the spec for comparison with the source:
ceil ((x_end - x_start) / step_x + 1) times the same along y. -/
def specClaimedTotalPoints (p : ScanParameters) : Nat :=
  (Int.ceil ((p.x_end - p.x_start) / p.step_x + 1)).toNat *
    (Int.ceil ((p.y_end - p.y_start) / p.step_y + 1)).toNat

/-- The cell of a grid at row r, column c, when both are in range. -/
def cellValue (g : List (List (Option ℚ))) (r c : Nat) : Option (Option ℚ) :=
  match g[r]? with
  | none => none
  | some row => row[c]?

/-- The grid has ny rows of nx columns each. -/
def gridDims (g : List (List (Option ℚ))) (ny nx : Nat) : Prop :=
  g.length = ny ∧ ∀ row ∈ g, row.length = nx

/-- The storage columns of a traversal row paired with the x coordinate the
stage visits there: the view of the inner loop used to state the serpentine
alignment property. -/
def rowColX (p : ScanParameters) (xs : List ℚ) (yi : Nat) : List (Nat × ℚ) :=
  (rowIter p xs yi).map (fun c => (colOf p xs.length yi c.1, c.2))

/-- Batch entries that carry no error, carry raw spectra, and avoid the
grid cell (rk, ck): the state of the in-flight buffer during a scan whose
only device failure is at the cell stored at (rk, ck). -/
def errorFreeBatch (batch : List (Nat × ScanPoint × Nat × Nat))
    (rk ck : Nat) : Prop :=
  ∀ b ∈ batch, b.2.1.error = none ∧ b.2.1.wavelengths.isSome = true ∧
    b.2.1.intensities.isSome = true ∧ (b.2.2.1 ≠ rk ∨ b.2.2.2 ≠ ck)

/-- Invariant of the traversal when the only failing device call is the
acquisition of the k-th visited cell, stored at grid cell (rk, ck): once
that visit has happened there is exactly one errored point, every errored
point carries only the error message, the visit timestamp and coordinates
(no score, no spectra), the buffer stays clean, and the failed grid cell
holds the NaN sentinel. -/
def singleFailInv (k : Nat) (e : String) (rk ck : Nat) (st : ExecState) : Prop :=
  ((st.points.filter (fun pt => pt.error.isSome)).length =
    if k < st.completed then 1 else 0) ∧
  (∀ pt ∈ st.points, pt.error.isSome = true →
    pt.error = some e ∧ pt.purity_score = none ∧ pt.confidence = none ∧
    pt.wavelengths = none ∧ pt.intensities = none ∧
    pt.timestamp = some ((k : ℚ))) ∧
  errorFreeBatch st.batch rk ck ∧
  (k < st.completed → cellValue st.grid rk ck = some none)

/-- Stage limits used by the concrete scenarios below. -/
def demoLimits : StageLimits := { x_min := 0, x_max := 100, y_min := 0, y_max := 100 }

/-- A fault-free environment: every acquisition and prediction succeeds and
no cancellation is ever observed. -/
def okEnv : ScanEnv :=
  { limits := demoLimits
    acquire := fun n => Except.ok ([(n : ℚ)], [(n : ℚ)])
    predict := fun n => Except.ok (80 + (n : ℚ), mkRat 9 10)
    cancel_at_check := fun _ => false }

/-- A freshly constructed orchestrator. -/
def idleOrch : Orchestrator := {}

/-- One column, two rows (x from 0 to 1 step 2, y from 0 to 1 step 1). -/
def pOneByTwo : ScanParameters :=
  { x_start := 0, y_start := 0, x_end := 1, y_end := 1, step_x := 2, step_y := 1 }

/-- Two columns, one row (x from 0 to 1 step 1, y from 0 to 1 step 2). -/
def pTwoByOne : ScanParameters :=
  { x_start := 0, y_start := 0, x_end := 1, y_end := 1, step_x := 1, step_y := 2 }

/-- A two-by-two grid (both axes from 0 to 1 step 1). -/
def pTwoByTwo : ScanParameters :=
  { x_start := 0, y_start := 0, x_end := 1, y_end := 1, step_x := 1, step_y := 1 }

/-- cancel_scan is called in flight and its flag becomes observable once one
point has completed. -/
def envCancelAfterOne : ScanEnv :=
  { okEnv with cancel_at_check := fun n => decide (1 ≤ n) }

/-- Like envCancelAfterOne, for the mid-row cancellation scenario. -/
def envCancelMidRow : ScanEnv :=
  { okEnv with cancel_at_check := fun n => decide (1 ≤ n) }

/-- Two columns, one row, batch size two: the flush-skipping scenario. -/
def pTwoByOneBatchTwo : ScanParameters :=
  { pTwoByOne with batch_size := 2 }

/-- Stage motion or acquisition raises on the second visited cell. -/
def envAcquireFailAtOne : ScanEnv :=
  { okEnv with
    acquire := fun n =>
      if n = 1 then Except.error "sensor fault" else Except.ok ([1], [1]) }

/-- Inference raises only for the point acquired second. -/
def envPredictFailAtOne : ScanEnv :=
  { okEnv with
    predict := fun n =>
      if n = 1 then Except.error "inference down" else Except.ok (85, mkRat 9 10) }

/-- Spectrometer acquisition raises on the third of four cells (scenario C
of the spec). -/
def envAcquireFailAtTwo : ScanEnv :=
  { okEnv with
    acquire := fun n =>
      if n = 2 then Except.error "acquisition timeout"
      else Except.ok ([(n : ℚ)], [(n : ℚ)]) }

/-- Twenty-one columns, one row: 21 grid points. -/
def pTwentyOne : ScanParameters :=
  { x_start := 0, y_start := 0, x_end := 20, y_end := 1, step_x := 1, step_y := 2 }

/-- An orchestrator with a scan in flight. -/
def runningOrch : Orchestrator := { status := ScanStatus.RUNNING }

/-- Parameters with inverted x bounds (scenario D of the spec). -/
def pInvertedX : ScanParameters :=
  { x_start := 5, y_start := 0, x_end := 2, y_end := 1, step_x := 1, step_y := 1 }

/-- x spans one and a half steps: the range is not an integer multiple of
the step, so inclusive sampling stops after the second sample. -/
def pFractionalX : ScanParameters :=
  { x_start := 0, y_start := 0, x_end := mkRat 3 2, y_end := 1, step_x := 1,
    step_y := 1 }

/-- The number of progress notifications emitted by the throttling rule of
the traversal loop (line 307) over one accepted scan. -/
def throttledNotifications (env : ScanEnv) (p : ScanParameters) : Nat :=
  (execRows env p (arange p.x_start (qAdd p.x_end eps) p.step_x)
    (arange p.x_start (qAdd p.x_end eps) p.step_x).length
    (arange p.y_start (qAdd p.y_end eps) p.step_y).length
    (arange p.y_start (qAdd p.y_end eps) p.step_y).enum
    (initState (arange p.x_start (qAdd p.x_end eps) p.step_x).length
      (arange p.y_start (qAdd p.y_end eps) p.step_y).length)).notifies

/-! ### Bridge lemmas for the kernel-computable arithmetic -/

theorem qAdd_eq (a b : ℚ) : qAdd a b = a + b := by
  have ha : ((a.den : ℚ)) ≠ 0 := Nat.cast_ne_zero.mpr a.den_nz
  have hb : ((b.den : ℚ)) ≠ 0 := Nat.cast_ne_zero.mpr b.den_nz
  have h1 : (a.num : ℚ) = a * a.den := (div_eq_iff ha).mp (Rat.num_div_den a)
  have h2 : (b.num : ℚ) = b * b.den := (div_eq_iff hb).mp (Rat.num_div_den b)
  rw [qAdd, Rat.mkRat_eq_div]
  push_cast
  rw [div_eq_iff (mul_ne_zero ha hb), h1, h2]
  ring

theorem qCeil_eq (q : ℚ) : qCeil q = Int.ceil q := by
  rw [qCeil, ← Rat.floor_def, Int.floor_neg, neg_neg]

theorem eps_eq : eps = 1 / 1000000000 := by
  rw [eps, Rat.mkRat_eq_div]
  norm_num

theorem divInt_delta_eq (a b s : ℚ) :
    ((Rat.divInt ((b.num * a.den - a.num * b.den) * s.den)
      ((b.den * a.den) * s.num)) : ℚ) = (b - a) / s := by
  have ha : ((a.den : ℚ)) ≠ 0 := Nat.cast_ne_zero.mpr a.den_nz
  have hb : ((b.den : ℚ)) ≠ 0 := Nat.cast_ne_zero.mpr b.den_nz
  have hs : ((s.den : ℚ)) ≠ 0 := Nat.cast_ne_zero.mpr s.den_nz
  have h1 : (a.num : ℚ) = a * a.den := (div_eq_iff ha).mp (Rat.num_div_den a)
  have h2 : (b.num : ℚ) = b * b.den := (div_eq_iff hb).mp (Rat.num_div_den b)
  rw [Rat.divInt_eq_div]
  push_cast
  by_cases h0 : s = 0
  · subst h0
    simp
  · have h3 : (s.num : ℚ) = s * s.den := (div_eq_iff hs).mp (Rat.num_div_den s)
    have hsn : ((s.num : ℚ)) ≠ 0 := by
      rw [h3]
      exact mul_ne_zero h0 hs
    rw [div_eq_div_iff (mul_ne_zero (mul_ne_zero hb ha) hsn) h0, h1, h2, h3]
    ring

theorem arangeLen_eq_ceil (a b s : ℚ) :
    arangeLen a b s = (Int.ceil ((b - a) / s)).toNat := by
  rw [arangeLen, qCeil_eq, divInt_delta_eq]

theorem arange_length (a b s : ℚ) : (arange a b s).length = arangeLen a b s := by
  simp [arange]

/-! ### Structural lemmas about the traversal -/

theorem rowIter_length (p : ScanParameters) (xs : List ℚ) (yi : Nat) :
    (rowIter p xs yi).length = xs.length := by
  rw [rowIter]
  split
  · rw [List.enum_length, List.length_reverse]
  · rw [List.enum_length]

theorem execCell_completed (env : ScanEnv) (p : ScanParameters)
    (nx ny yi : Nat) (y : ℚ) (xi : Nat) (x : ℚ) (st : ExecState) :
    (execCell env p nx ny yi y xi x st).completed = st.completed + 1 := by
  rw [execCell]
  cases env.acquire st.completed with
  | error e => rfl
  | ok wi =>
    dsimp only
    split
    · split
      · rfl
      · rfl
    · split
      · rfl
      · rfl

theorem execRow_completed (env : ScanEnv) (p : ScanParameters)
    (nx ny yi : Nat) (y : ℚ) :
    ∀ (cells : List (Nat × ℚ)) (st : ExecState),
      (execRow env p nx ny yi y cells st).completed = st.completed + cells.length
  | [], st => rfl
  | (xi, x) :: rest, st => by
    rw [execRow, execRow_completed env p nx ny yi y rest, execCell_completed]
    rw [List.length_cons]
    omega

theorem execRows_completed_le (env : ScanEnv) (p : ScanParameters)
    (xs : List ℚ) (nx ny : Nat) :
    ∀ (rows : List (Nat × ℚ)) (st : ExecState),
      (execRows env p xs nx ny rows st).completed ≤
        st.completed + rows.length * xs.length
  | [], st => by
    rw [execRows]
    simp
  | (yi, y) :: rest, st => by
    rw [execRows]
    split
    · exact Nat.le_add_right _ _
    · have h := execRows_completed_le env p xs nx ny rest
        (execRow env p nx ny yi y (rowIter p xs yi) st)
      rw [execRow_completed, rowIter_length] at h
      rw [List.length_cons, Nat.add_one_mul]
      omega

theorem execRows_completed_nocancel (env : ScanEnv) (p : ScanParameters)
    (xs : List ℚ) (nx ny : Nat)
    (hnc : ∀ n, env.cancel_at_check n = false) :
    ∀ (rows : List (Nat × ℚ)) (st : ExecState),
      (execRows env p xs nx ny rows st).completed =
        st.completed + rows.length * xs.length
  | [], st => by
    rw [execRows]
    simp
  | (yi, y) :: rest, st => by
    rw [execRows]
    rw [hnc st.completed]
    simp only [Bool.false_eq_true, if_false]
    rw [execRows_completed_nocancel env p xs nx ny hnc rest, execRow_completed,
      rowIter_length, List.length_cons]
    ring

theorem setCell_dims {g : List (List (Option ℚ))} {ny nx : Nat}
    (hd : gridDims g ny nx) (r c : Nat) (v : Option ℚ) :
    gridDims (setCell g r c v) ny nx := by
  constructor
  · rw [setCell, List.length_set]
    exact hd.1
  · intro row hrow
    by_cases hr : r < g.length
    · rw [setCell] at hrow
      rcases List.mem_or_eq_of_mem_set hrow with h1 | h2
      · exact hd.2 row h1
      · subst h2
        rw [List.length_set]
        apply hd.2
        rw [List.getD_eq_getElem g [] hr]
        exact List.getElem_mem hr
    · rw [setCell, List.set_eq_of_length_le (by omega)] at hrow
      exact hd.2 row hrow

theorem applyScores_dims {ny nx : Nat} :
    ∀ (l : List ((Nat × ScanPoint × Nat × Nat) × (Option ℚ × Option ℚ)))
      (g : List (List (Option ℚ))) (ps : List ScanPoint),
      gridDims g ny nx → gridDims (applyScores l g ps).1 ny nx
  | [], g, ps, hd => hd
  | (b, sc) :: rest, g, ps, hd => by
    rw [applyScores]
    exact applyScores_dims rest _ _ (setCell_dims hd _ _ _)

theorem markErrors_dims {ny nx : Nat} (e : String) :
    ∀ (l : List (Nat × ScanPoint × Nat × Nat))
      (g : List (List (Option ℚ))) (ps : List ScanPoint),
      gridDims g ny nx → gridDims (markErrors e l g ps).1 ny nx
  | [], g, ps, hd => hd
  | b :: rest, g, ps, hd => by
    rw [markErrors]
    exact markErrors_dims e rest _ _ (setCell_dims hd _ _ _)

theorem process_batch_dims {ny nx : Nat} (env : ScanEnv)
    (batch : List (Nat × ScanPoint × Nat × Nat))
    (g : List (List (Option ℚ))) (ps : List ScanPoint)
    (hd : gridDims g ny nx) : gridDims (process_batch env batch g ps).1 ny nx := by
  cases batch with
  | nil =>
    rw [process_batch]
    exact hd
  | cons b rest =>
    rw [process_batch]
    cases runPredicts env (b :: rest) with
    | ok scores => exact applyScores_dims _ _ _ hd
    | error e => exact markErrors_dims e _ _ _ hd

theorem execCell_dims {ny nx : Nat} (env : ScanEnv) (p : ScanParameters)
    (ny2 nx2 yi : Nat) (y : ℚ) (xi : Nat) (x : ℚ) (st : ExecState)
    (hd : gridDims st.grid ny nx) :
    gridDims (execCell env p nx2 ny2 yi y xi x st).grid ny nx := by
  rw [execCell]
  cases env.acquire st.completed with
  | error e => exact setCell_dims hd _ _ _
  | ok wi =>
    dsimp only
    split
    · split
      · exact process_batch_dims env _ _ _ hd
      · exact process_batch_dims env _ _ _ hd
    · split
      · exact hd
      · exact hd

theorem execRow_dims {ny nx : Nat} (env : ScanEnv) (p : ScanParameters)
    (ny2 nx2 yi : Nat) (y : ℚ) :
    ∀ (cells : List (Nat × ℚ)) (st : ExecState),
      gridDims st.grid ny nx →
      gridDims (execRow env p nx2 ny2 yi y cells st).grid ny nx
  | [], st, hd => hd
  | (xi, x) :: rest, st, hd => by
    rw [execRow]
    exact execRow_dims env p ny2 nx2 yi y rest _ (execCell_dims env p _ _ _ _ _ _ _ hd)

theorem execRows_dims {ny nx : Nat} (env : ScanEnv) (p : ScanParameters)
    (xs : List ℚ) (nx2 ny2 : Nat) :
    ∀ (rows : List (Nat × ℚ)) (st : ExecState),
      gridDims st.grid ny nx →
      gridDims (execRows env p xs nx2 ny2 rows st).grid ny nx
  | [], st, hd => by
    rw [execRows]
    exact hd
  | (yi, y) :: rest, st, hd => by
    rw [execRows]
    split
    · exact hd
    · exact execRows_dims env p xs nx2 ny2 rest _
        (execRow_dims env p _ _ _ _ _ _ hd)

theorem initial_grid_dims (nx ny : Nat) : gridDims (initial_grid nx ny) ny nx := by
  constructor
  · rw [initial_grid, List.length_replicate]
  · intro row hrow
    rw [initial_grid] at hrow
    rw [List.eq_of_mem_replicate hrow, List.length_replicate]

theorem initial_grid_all_missing (nx ny : Nat) :
    ∀ row ∈ initial_grid nx ny, ∀ cell ∈ row, cell = none := by
  intro row hrow cell hcell
  rw [initial_grid] at hrow
  rw [List.eq_of_mem_replicate hrow] at hcell
  exact List.eq_of_mem_replicate hcell

theorem start_scan_ok_elim (env : ScanEnv) (o : Orchestrator)
    (p : ScanParameters) (r : ScanResult)
    (h : (start_scan env o p).2 = Except.ok r) :
    o.status = ScanStatus.IDLE ∧
    validate_scan_parameters env.limits p = Except.ok () ∧
    env.prepare_error = none ∧
    r.parameters = p ∧
    r.x_positions = arange p.x_start (qAdd p.x_end eps) p.step_x ∧
    r.y_positions = arange p.y_start (qAdd p.y_end eps) p.step_y ∧
    r.total_points = (arange p.x_start (qAdd p.x_end eps) p.step_x).length *
      (arange p.y_start (qAdd p.y_end eps) p.step_y).length ∧
    r.status = ScanStatus.COMPLETED ∧
    r.end_time = some env.end_time ∧
    (let xs := arange p.x_start (qAdd p.x_end eps) p.step_x
     let ys := arange p.y_start (qAdd p.y_end eps) p.step_y
     let fin := execRows env p xs xs.length ys.length ys.enum
       (initState xs.length ys.length)
     r.grid = fin.grid ∧ r.points = fin.points ∧
       r.completed_points = fin.completed) := by
  rw [start_scan] at h
  by_cases hst : o.status = ScanStatus.IDLE
  · rw [if_neg (by simp [hst])] at h
    cases hv : validate_scan_parameters env.limits p with
    | error e =>
      rw [hv] at h
      exact absurd h (by simp)
    | ok u =>
      rw [hv] at h
      cases hp : env.prepare_error with
      | some e =>
        rw [hp] at h
        exact absurd h (by simp)
      | none =>
        rw [hp] at h
        dsimp only at h
        injection h with h2
        subst h2
        exact ⟨hst, by cases u; rfl, rfl, rfl, rfl, rfl, rfl, rfl, rfl, rfl, rfl, rfl⟩
  · rw [if_pos hst] at h
    exact absurd h (by simp)

theorem except_eq_ok_of_isSome {ε α : Type _} (x : Except ε α)
    (h : x.toOption.isSome) : x = Except.ok (x.toOption.get h) := by
  cases x with
  | error e => simp [Except.toOption] at h
  | ok a => rfl

theorem runPredicts_ok_length (env : ScanEnv) :
    ∀ (l : List (Nat × ScanPoint × Nat × Nat)) (s : List (Option ℚ × Option ℚ)),
      runPredicts env l = Except.ok s → s.length = l.length
  | [], s, h => by
    rw [runPredicts] at h
    injection h with h2
    rw [← h2]
    rfl
  | (n, pt, a, b) :: rest, s, h => by
    rw [runPredicts] at h
    split at h
    · cases hpr : env.predict n with
      | error e =>
        rw [hpr] at h
        exact absurd h (by simp)
      | ok pc =>
        rw [hpr] at h
        cases hrr : runPredicts env rest with
        | error e =>
          rw [hrr] at h
          exact absurd h (by simp)
        | ok tail =>
          rw [hrr] at h
          injection h with h2
          rw [← h2, List.length_cons, List.length_cons,
            runPredicts_ok_length env rest tail hrr]
    · cases hrr : runPredicts env rest with
      | error e =>
        rw [hrr] at h
        exact absurd h (by simp)
      | ok tail =>
        rw [hrr] at h
        injection h with h2
        rw [← h2, List.length_cons, List.length_cons,
          runPredicts_ok_length env rest tail hrr]

theorem applyScores_snd :
    ∀ (l : List ((Nat × ScanPoint × Nat × Nat) × (Option ℚ × Option ℚ)))
      (g : List (List (Option ℚ))) (ps : List ScanPoint),
      (applyScores l g ps).2 = ps ++ l.map
        (fun e => { e.1.2.1 with purity_score := e.2.1, confidence := e.2.2 })
  | [], g, ps => by
    rw [applyScores]
    simp
  | (b, sc) :: rest, g, ps => by
    rw [applyScores, applyScores_snd rest]
    simp

theorem markErrors_snd (e : String) :
    ∀ (l : List (Nat × ScanPoint × Nat × Nat))
      (g : List (List (Option ℚ))) (ps : List ScanPoint),
      (markErrors e l g ps).2 = ps ++ l.map
        (fun b => { b.2.1 with error := some e })
  | [], g, ps => by
    rw [markErrors]
    simp
  | b :: rest, g, ps => by
    rw [markErrors, markErrors_snd e rest]
    simp

theorem process_batch_singleton (env : ScanEnv) (b : Nat × ScanPoint × Nat × Nat)
    (g : List (List (Option ℚ))) (ps : List ScanPoint) :
    ∃ pt2, (process_batch env [b] g ps).2 = ps ++ [pt2] ∧
      pt2.timestamp = b.2.1.timestamp := by
  rw [process_batch]
  cases hrp : runPredicts env [b] with
  | ok scores =>
    have hlen : scores.length = 1 := runPredicts_ok_length env [b] scores hrp
    cases scores with
    | nil => exact absurd hlen (by simp)
    | cons sc stail =>
      cases stail with
      | nil =>
        refine ⟨{ b.2.1 with purity_score := sc.1, confidence := sc.2 }, ?_, rfl⟩
        dsimp only
        rw [applyScores_snd]
        rfl
      | cons sc2 stail2 => exact absurd hlen (by simp)
  | error e =>
    refine ⟨{ b.2.1 with error := some e }, ?_, rfl⟩
    dsimp only
    rw [markErrors_snd]
    rfl

theorem execCell_batch_one (env : ScanEnv) (p : ScanParameters)
    (nx ny yi : Nat) (y : ℚ) (xi : Nat) (x : ℚ) (st : ExecState)
    (hbs : p.batch_size = 1) (hb : st.batch = []) :
    (execCell env p nx ny yi y xi x st).batch = [] ∧
    ∃ pt2, (execCell env p nx ny yi y xi x st).points = st.points ++ [pt2] ∧
      pt2.timestamp = some ((st.completed : ℚ)) := by
  rw [execCell]
  cases env.acquire st.completed with
  | error e =>
    exact ⟨hb, ⟨_, rfl, rfl⟩⟩
  | ok wi =>
    dsimp only
    rw [hb]
    simp only [List.nil_append]
    rcases process_batch_singleton env
      (st.completed,
        { x := x, y := y, wavelengths := some wi.1, intensities := some wi.2,
          timestamp := some ((st.completed : ℚ)) }, yi, colOf p nx yi xi)
      st.grid st.points with ⟨pt2, hsnd, hts⟩
    split
    · split
      · exact ⟨rfl, ⟨pt2, hsnd, hts⟩⟩
      · exact ⟨rfl, ⟨pt2, hsnd, hts⟩⟩
    · next hcond =>
      refine absurd (Or.inl ?_) hcond
      rw [hbs]
      simp

theorem execRow_batch_one (env : ScanEnv) (p : ScanParameters)
    (nx ny yi : Nat) (y : ℚ) (hbs : p.batch_size = 1) :
    ∀ (cells : List (Nat × ℚ)) (st : ExecState), st.batch = [] →
      st.points.map (fun q => q.timestamp) =
        (List.range st.completed).map (fun (n : Nat) => some ((n : ℚ))) →
      (execRow env p nx ny yi y cells st).batch = [] ∧
      (execRow env p nx ny yi y cells st).points.map (fun q => q.timestamp) =
        (List.range (execRow env p nx ny yi y cells st).completed).map
          (fun (n : Nat) => some ((n : ℚ)))
  | [], st, hb, hts => ⟨hb, hts⟩
  | (xi, x) :: rest, st, hb, hts => by
    rw [execRow]
    rcases execCell_batch_one env p nx ny yi y xi x st hbs hb with ⟨hb2, pt2, hpts, hts2⟩
    refine execRow_batch_one env p nx ny yi y hbs rest _ hb2 ?_
    rw [hpts, execCell_completed, List.range_succ]
    simp only [List.map_append, hts, hts2, List.map_cons, List.map_nil]

theorem execRows_batch_one (env : ScanEnv) (p : ScanParameters)
    (xs : List ℚ) (nx ny : Nat) (hbs : p.batch_size = 1) :
    ∀ (rows : List (Nat × ℚ)) (st : ExecState), st.batch = [] →
      st.points.map (fun q => q.timestamp) =
        (List.range st.completed).map (fun (n : Nat) => some ((n : ℚ))) →
      (execRows env p xs nx ny rows st).points.map (fun q => q.timestamp) =
        (List.range (execRows env p xs nx ny rows st).completed).map
          (fun (n : Nat) => some ((n : ℚ)))
  | [], st, hb, hts => by
    rw [execRows]
    exact hts
  | (yi, y) :: rest, st, hb, hts => by
    rw [execRows]
    split
    · exact hts
    · rcases execRow_batch_one env p nx ny yi y hbs (rowIter p xs yi) st hb hts
        with ⟨hb2, hts2⟩
      exact execRows_batch_one env p xs nx ny hbs rest _ hb2 hts2

/-- C3, amended: for every accepted scan the total is the epsilon-extended
inclusive rule the code implements, ceil ((x_end + 1e-9 - x_start) / step_x)
times its y analogue (this equals the ceil (delta / step + 1) formula of
the claim only when the range is an exact multiple of the step); the total
also equals nx times ny, the result grid has shape (ny, nx) =
(len y_positions, len x_positions), and the grid allocated at scan start is
filled with the NaN missing sentinel. -/
theorem C3_total_points_and_grid_shape (env : ScanEnv) (o : Orchestrator)
    (p : ScanParameters) (r : ScanResult)
    (h : (start_scan env o p).2 = Except.ok r) :
    r.total_points =
      (Int.ceil ((p.x_end + 1 / 1000000000 - p.x_start) / p.step_x)).toNat *
        (Int.ceil ((p.y_end + 1 / 1000000000 - p.y_start) / p.step_y)).toNat ∧
    r.total_points = r.x_positions.length * r.y_positions.length ∧
    r.grid.length = r.y_positions.length ∧
    (∀ row ∈ r.grid, row.length = r.x_positions.length) ∧
    (∀ row ∈ initial_grid r.x_positions.length r.y_positions.length,
      ∀ cell ∈ row, cell = none) := by
  obtain ⟨hst, hv, hp, hpar, hx, hy, htot, hstat, hend, hfin⟩ :=
    start_scan_ok_elim env o p r h
  obtain ⟨hg, hpts, hcomp⟩ := hfin
  have hd : gridDims r.grid
      (arange p.y_start (qAdd p.y_end eps) p.step_y).length
      (arange p.x_start (qAdd p.x_end eps) p.step_x).length := by
    rw [hg]
    exact execRows_dims _ _ _ _ _ _ _ (initial_grid_dims _ _)
  refine ⟨?_, ?_, ?_, ?_, ?_⟩
  · rw [htot, arange_length, arange_length, arangeLen_eq_ceil, arangeLen_eq_ceil,
      qAdd_eq, qAdd_eq, eps_eq]
  · rw [htot, hx, hy]
  · rw [hy]
    exact hd.1
  · intro row hrow
    rw [hx]
    exact hd.2 row hrow
  · rw [hx, hy]
    exact initial_grid_all_missing _ _

theorem C3_total_points_and_grid_shape_witness :
    ∃ r, (start_scan okEnv idleOrch pTwoByOne).2 = Except.ok r ∧
      r.total_points = r.x_positions.length * r.y_positions.length ∧
      r.grid.length = r.y_positions.length := by
  have hs : ((start_scan okEnv idleOrch pTwoByOne).2.toOption.isSome) = true := by
    decide
  have hok := except_eq_ok_of_isSome _ hs
  have hc := C3_total_points_and_grid_shape okEnv idleOrch pTwoByOne _ hok
  exact ⟨_, hok, hc.2.1, hc.2.2.1⟩

/-- C4, amended: with batch_size 1 (every point flushed as soon as it is
acquired) a finished scan satisfies completed_points = len points and the
points list is exactly in acquisition order (its timestamps, the model
clock, are 0, 1, ... in order).  For batch_size at least 2 the claim fails:
points still buffered when the traversal stops (cancellation, or an
exception at the last cell skipping the final flush) are dropped, and error
points are appended ahead of earlier buffered successes. -/
theorem C4_batch_one_points_complete (env : ScanEnv) (o : Orchestrator)
    (p : ScanParameters) (r : ScanResult)
    (hbs : p.batch_size = 1)
    (h : (start_scan env o p).2 = Except.ok r) :
    r.completed_points = r.points.length ∧
    r.points.map (fun q => q.timestamp) =
      (List.range r.completed_points).map (fun (n : Nat) => some ((n : ℚ))) := by
  obtain ⟨hst, hv, hp, hpar, hx, hy, htot, hstat, hend, hfin⟩ :=
    start_scan_ok_elim env o p r h
  obtain ⟨hg, hpts, hcomp⟩ := hfin
  have hts : r.points.map (fun q => q.timestamp) =
      (List.range r.completed_points).map (fun (n : Nat) => some ((n : ℚ))) := by
    rw [hpts, hcomp]
    exact execRows_batch_one env p _ _ _ hbs _ _ rfl (by simp [initState])
  refine ⟨?_, hts⟩
  have hlen := congrArg List.length hts
  rw [List.length_map, List.length_map, List.length_range] at hlen
  omega

theorem C4_batch_one_points_complete_witness :
    ∃ r, (start_scan okEnv idleOrch pTwoByOne).2 = Except.ok r ∧
      r.completed_points = r.points.length := by
  have hs : ((start_scan okEnv idleOrch pTwoByOne).2.toOption.isSome) = true := by
    decide
  have hok := except_eq_ok_of_isSome _ hs
  exact ⟨_, hok,
    (C4_batch_one_points_complete okEnv idleOrch pTwoByOne _ rfl hok).1⟩

theorem validate_ok_bounds (limits : StageLimits) (p : ScanParameters)
    (h : validate_scan_parameters limits p = Except.ok ()) :
    p.x_start < p.x_end ∧ p.y_start < p.y_end ∧ 0 < p.step_x ∧ 0 < p.step_y := by
  rw [validate_scan_parameters] at h
  split_ifs at h with h1 h2 h3 h4 h5 h6 h7
  push_neg at h1 h2 h3
  exact ⟨h1, h2, h3.1, h3.2⟩

theorem arangeLen_pos (a b s : ℚ) (hab : a < b) (hs : 0 < s) :
    0 < arangeLen a (qAdd b eps) s := by
  rw [arangeLen_eq_ceil, qAdd_eq]
  have heps : (0 : ℚ) < eps := by
    rw [eps_eq]
    norm_num
  have hq : (0 : ℚ) < (b + eps - a) / s := by
    apply div_pos
    · linarith
    · exact hs
  have hceil : 0 < Int.ceil ((b + eps - a) / s) := Int.ceil_pos.mpr hq
  omega

theorem execRows_cancel_schedule (env : ScanEnv) (p : ScanParameters)
    (xs : List ℚ) (nx ny : Nat) (k : Nat)
    (hk : ∀ n, env.cancel_at_check n = decide (k ≤ n))
    (hnx : 0 < xs.length) :
    ∀ (ytail : List ℚ) (r0 : Nat) (st : ExecState),
      st.completed = r0 * xs.length →
      (execRows env p xs nx ny (List.enumFrom r0 ytail) st).completed =
        xs.length * min (r0 + ytail.length)
          (max r0 ((k + xs.length - 1) / xs.length))
  | [], r0, st, hc => by
    rw [List.enumFrom, execRows]
    have hmin : min (r0 + ([] : List ℚ).length)
        (max r0 ((k + xs.length - 1) / xs.length)) = r0 := by
      simp only [List.length_nil, Nat.add_zero]
      omega
    rw [hmin, hc, Nat.mul_comm]
  | y :: ytl, r0, st, hc => by
    rw [List.enumFrom, execRows, hk st.completed, hc]
    by_cases hkr : k ≤ r0 * xs.length
    · rw [if_pos (by simpa using hkr)]
      have hle : (k + xs.length - 1) / xs.length ≤ r0 := by
        rw [Nat.div_le_iff_le_mul_add_pred hnx, Nat.mul_comm]
        omega
      have hmin : min (r0 + (y :: ytl).length)
          (max r0 ((k + xs.length - 1) / xs.length)) = r0 := by
        rw [List.length_cons]
        omega
      rw [hmin, hc, Nat.mul_comm]
    · rw [if_neg (by simpa using hkr)]
      have hc2 : (execRow env p nx ny r0 y (rowIter p xs r0) st).completed =
          (r0 + 1) * xs.length := by
        rw [execRow_completed, rowIter_length, hc]
        ring
      rw [execRows_cancel_schedule env p xs nx ny k hk hnx ytl (r0 + 1) _ hc2]
      have hge : r0 + 1 ≤ (k + xs.length - 1) / xs.length := by
        rw [Nat.le_div_iff_mul_le hnx, Nat.add_one_mul]
        omega
      have hmin : min (r0 + 1 + ytl.length)
            (max (r0 + 1) ((k + xs.length - 1) / xs.length)) =
          min (r0 + (y :: ytl).length)
            (max r0 ((k + xs.length - 1) / xs.length)) := by
        rw [List.length_cons]
        omega
      rw [hmin]

/-- C2, amended: the pause and cancel flags are read once before each row,
not before each cell, so a cancellation observable after k completed points
stops the traversal at the next per-row boundary: the scan ends with
completed_points = nx * min ny (ceil (k / nx)) (whole rows only), not k;
likewise a pause requested mid-row cannot stop completed_points from
growing before the row ends, since the flag is not read mid-row. -/
theorem C2_flag_checks_are_per_row (env : ScanEnv) (o : Orchestrator)
    (p : ScanParameters) (r : ScanResult) (k : Nat)
    (hk : ∀ n, env.cancel_at_check n = decide (k ≤ n))
    (h : (start_scan env o p).2 = Except.ok r) :
    0 < r.x_positions.length ∧
    r.completed_points = r.x_positions.length *
      min r.y_positions.length
        ((k + r.x_positions.length - 1) / r.x_positions.length) := by
  obtain ⟨hst, hv, hp, hpar, hx, hy, htot, hstat, hend, hfin⟩ :=
    start_scan_ok_elim env o p r h
  obtain ⟨hg, hpts, hcomp⟩ := hfin
  obtain ⟨hxe, hye, hsx, hsy⟩ := validate_ok_bounds env.limits p hv
  have hnx : 0 < (arange p.x_start (qAdd p.x_end eps) p.step_x).length := by
    rw [arange_length]
    exact arangeLen_pos _ _ _ hxe hsx
  refine ⟨by rw [hx]; exact hnx, ?_⟩
  have hsched := execRows_cancel_schedule env p
    (arange p.x_start (qAdd p.x_end eps) p.step_x)
    (arange p.x_start (qAdd p.x_end eps) p.step_x).length
    (arange p.y_start (qAdd p.y_end eps) p.step_y).length k hk hnx
    (arange p.y_start (qAdd p.y_end eps) p.step_y) 0
    (initState (arange p.x_start (qAdd p.x_end eps) p.step_x).length
      (arange p.y_start (qAdd p.y_end eps) p.step_y).length)
    (by simp [initState])
  rw [hcomp, hx, hy]
  rw [show (arange p.y_start (qAdd p.y_end eps) p.step_y).enum =
    List.enumFrom 0 (arange p.y_start (qAdd p.y_end eps) p.step_y) from rfl]
  rw [hsched, Nat.zero_add, Nat.zero_max]

theorem C2_flag_checks_are_per_row_witness :
    ∃ r, (start_scan envCancelAfterOne idleOrch pOneByTwo).2 = Except.ok r ∧
      r.completed_points = r.x_positions.length *
        min r.y_positions.length
          ((1 + r.x_positions.length - 1) / r.x_positions.length) := by
  have hs : ((start_scan envCancelAfterOne idleOrch pOneByTwo).2.toOption.isSome)
      = true := by decide
  have hok := except_eq_ok_of_isSome _ hs
  exact ⟨_, hok,
    (C2_flag_checks_are_per_row envCancelAfterOne idleOrch pOneByTwo _ 1
      (fun n => rfl) hok).2⟩

theorem execCell_notifies (env : ScanEnv) (p : ScanParameters)
    (nx ny yi : Nat) (y : ℚ) (xi : Nat) (x : ℚ) (st : ExecState)
    (h : st.notifies ≤ st.completed / max 1 (nx * ny / 20)) :
    (execCell env p nx ny yi y xi x st).notifies ≤
      (execCell env p nx ny yi y xi x st).completed / max 1 (nx * ny / 20) := by
  have hmono : st.completed / max 1 (nx * ny / 20) ≤
      (st.completed + 1) / max 1 (nx * ny / 20) :=
    Nat.div_le_div_right (Nat.le_succ _)
  rw [execCell]
  cases env.acquire st.completed with
  | error e => exact le_trans h hmono
  | ok wi =>
    dsimp only
    split
    · split
      · next hmod =>
        dsimp only
        have hdvd : max 1 (nx * ny / 20) ∣ st.completed + 1 :=
          Nat.dvd_of_mod_eq_zero (by simpa using hmod)
        rw [Nat.succ_div, if_pos hdvd]
        omega
      · exact le_trans h hmono
    · split
      · next hmod =>
        dsimp only
        have hdvd : max 1 (nx * ny / 20) ∣ st.completed + 1 :=
          Nat.dvd_of_mod_eq_zero (by simpa using hmod)
        rw [Nat.succ_div, if_pos hdvd]
        omega
      · exact le_trans h hmono

theorem execRow_notifies (env : ScanEnv) (p : ScanParameters)
    (nx ny yi : Nat) (y : ℚ) :
    ∀ (cells : List (Nat × ℚ)) (st : ExecState),
      st.notifies ≤ st.completed / max 1 (nx * ny / 20) →
      (execRow env p nx ny yi y cells st).notifies ≤
        (execRow env p nx ny yi y cells st).completed / max 1 (nx * ny / 20)
  | [], st, h => h
  | (xi, x) :: rest, st, h => by
    rw [execRow]
    exact execRow_notifies env p nx ny yi y rest _
      (execCell_notifies env p nx ny yi y xi x st h)

theorem execRows_notifies (env : ScanEnv) (p : ScanParameters)
    (xs : List ℚ) (nx ny : Nat) :
    ∀ (rows : List (Nat × ℚ)) (st : ExecState),
      st.notifies ≤ st.completed / max 1 (nx * ny / 20) →
      (execRows env p xs nx ny rows st).notifies ≤
        (execRows env p xs nx ny rows st).completed / max 1 (nx * ny / 20)
  | [], st, h => by
    rw [execRows]
    exact h
  | (yi, y) :: rest, st, h => by
    rw [execRows]
    split
    · exact h
    · exact execRows_notifies env p xs nx ny rest _
        (execRow_notifies env p nx ny yi y _ st h)

theorem throttle_quota_le_39 (t : Nat) : t / max 1 (t / 20) ≤ 39 := by
  by_cases ht : t ≤ 39
  · exact le_trans (Nat.div_le_self _ _) ht
  · have hm : 0 < t / 20 := by omega
    have hmax : max 1 (t / 20) = t / 20 := by omega
    have h40 : t < 40 * (t / 20) := by omega
    have := (Nat.div_lt_iff_lt_mul hm).mpr h40
    rw [hmax]
    omega

/-- C9, amended: the throttled rule notifies whenever completed_points is a
multiple of max 1 (total_points / 20); over one scan this emits at most
total / max 1 (total / 20) notifications, which can reach 39 (21 points
give 21 notifications, 39 points give 39) but never more, and one more
notification is always emitted when the scan ends. -/
theorem C9_notifications_bound (env : ScanEnv) (o : Orchestrator)
    (p : ScanParameters)
    (ho : o.status = ScanStatus.IDLE)
    (hv : validate_scan_parameters env.limits p = Except.ok ())
    (hp : env.prepare_error = none) :
    scanNotifications env o p = throttledNotifications env p + 1 ∧
    throttledNotifications env p ≤ 39 := by
  constructor
  · rw [scanNotifications, if_neg (by simp [ho]), hv, hp]
    rfl
  · set L := (arange p.x_start (qAdd p.x_end eps) p.step_x).length with hL
    set M := (arange p.y_start (qAdd p.y_end eps) p.step_y).length with hM
    have hinv := execRows_notifies env p
      (arange p.x_start (qAdd p.x_end eps) p.step_x) L M
      (arange p.y_start (qAdd p.y_end eps) p.step_y).enum (initState L M)
      (by simp [initState])
    have hcle := execRows_completed_le env p
      (arange p.x_start (qAdd p.x_end eps) p.step_x) L M
      (arange p.y_start (qAdd p.y_end eps) p.step_y).enum (initState L M)
    rw [List.enum_length] at hcle
    have hcle2 : (execRows env p (arange p.x_start (qAdd p.x_end eps) p.step_x)
        L M (arange p.y_start (qAdd p.y_end eps) p.step_y).enum
        (initState L M)).completed ≤ L * M := by
      have h0 : (initState L M).completed = 0 := rfl
      rw [h0] at hcle
      rw [Nat.mul_comm]
      simpa using hcle
    have hfin : throttledNotifications env p ≤ (L * M) / max 1 (L * M / 20) :=
      le_trans hinv (Nat.div_le_div_right hcle2)
    exact le_trans hfin (throttle_quota_le_39 (L * M))

theorem C9_notifications_bound_witness :
    scanNotifications okEnv idleOrch pTwoByOne =
      throttledNotifications okEnv pTwoByOne + 1 ∧
    throttledNotifications okEnv pTwoByOne ≤ 39 :=
  C9_notifications_bound okEnv idleOrch pTwoByOne rfl (by decide) rfl

theorem cellValue_inv {g : List (List (Option ℚ))} {r c : Nat}
    {w : Option ℚ} (h : cellValue g r c = some w) :
    ∃ row, g[r]? = some row ∧ row[c]? = some w := by
  rw [cellValue] at h
  cases hg : g[r]? with
  | none =>
    rw [hg] at h
    exact absurd h (by simp)
  | some row =>
    rw [hg] at h
    exact ⟨row, rfl, h⟩

theorem cellValue_setCell_self {g : List (List (Option ℚ))} {ny nx : Nat}
    (hd : gridDims g ny nx) {r c : Nat} (hr : r < ny) (hc : c < nx)
    (v : Option ℚ) : cellValue (setCell g r c v) r c = some v := by
  have hrg : r < g.length := by
    rw [hd.1]
    exact hr
  have hrow : (g.getD r []).length = nx := by
    rw [List.getD_eq_getElem g [] hrg]
    exact hd.2 _ (List.getElem_mem hrg)
  rw [cellValue, setCell]
  rw [List.getElem?_set_self (by exact hrg)]
  dsimp only
  rw [List.getElem?_set_self (by rw [hrow]; exact hc)]

theorem cellValue_setCell_none {g : List (List (Option ℚ))} {r c : Nat}
    (h : cellValue g r c = some none) (r2 c2 : Nat) :
    cellValue (setCell g r2 c2 none) r c = some none := by
  rcases cellValue_inv h with ⟨row, hrow, hcell⟩
  have hrg : r < g.length := by
    by_contra hcon
    rw [List.getElem?_eq_none (by omega)] at hrow
    exact Option.noConfusion hrow
  have hcr : c < row.length := by
    by_contra hcon
    rw [List.getElem?_eq_none (by omega)] at hcell
    exact Option.noConfusion hcell
  by_cases hr2 : r2 = r
  · subst hr2
    rw [cellValue, setCell, List.getElem?_set_self hrg]
    dsimp only
    have hgd : g.getD r2 [] = row := by
      rw [List.getD_eq_getElem g [] hrg]
      rw [List.getElem?_eq_getElem hrg] at hrow
      exact Option.some.inj hrow
    by_cases hc2 : c2 = c
    · subst hc2
      rw [hgd, List.getElem?_set_self hcr]
    · rw [hgd, List.getElem?_set_ne (by omega)]
      exact hcell
  · rw [cellValue, setCell, List.getElem?_set_ne (by omega), hrow]
    exact hcell

theorem markErrors_preserves_missing (e : String) :
    ∀ (l : List (Nat × ScanPoint × Nat × Nat))
      (g : List (List (Option ℚ))) (ps : List ScanPoint) (r c : Nat),
      cellValue g r c = some none →
      cellValue (markErrors e l g ps).1 r c = some none
  | [], g, ps, r, c, h => h
  | b :: rest, g, ps, r, c, h => by
    rw [markErrors]
    exact markErrors_preserves_missing e rest _ _ r c
      (cellValue_setCell_none h _ _)

theorem markErrors_cells_missing (e : String) {ny nx : Nat} :
    ∀ (l : List (Nat × ScanPoint × Nat × Nat))
      (g : List (List (Option ℚ))) (ps : List ScanPoint),
      gridDims g ny nx →
      ∀ b ∈ l, b.2.2.1 < ny → b.2.2.2 < nx →
        cellValue (markErrors e l g ps).1 b.2.2.1 b.2.2.2 = some none
  | [], g, ps, hd, b, hb, hr, hc => absurd hb (List.not_mem_nil b)
  | b0 :: rest, g, ps, hd, b, hb, hr, hc => by
    rw [markErrors]
    rcases List.mem_cons.mp hb with hb0 | hbr
    · subst hb0
      exact markErrors_preserves_missing e rest _ _ _ _
        (cellValue_setCell_self hd hr hc none)
    · exact markErrors_cells_missing e rest _ _ (setCell_dims hd _ _ _) b hbr hr hc

/-- C5, amended: there is no per-point recovery around the predict call of
_process_batch: whenever the sequential predict calls of a flush raise for
any buffered point (even exactly one), the flush-level handler marks every
point of the batch with that same error, none of them receives a
purity_score or confidence, and every cell of the batch is set to the NaN
missing sentinel.  The per-point clause of the claim holds only in the
degenerate sense that a point without raw spectra is scored NaN without an
error; an exception from predict is never isolated to one point. -/
theorem C5_flush_failure_marks_whole_batch (env : ScanEnv)
    (batch : List (Nat × ScanPoint × Nat × Nat))
    (g : List (List (Option ℚ))) (ps : List ScanPoint) (e : String)
    {ny nx : Nat} (hd : gridDims g ny nx)
    (hne : batch ≠ [])
    (hrp : runPredicts env batch = Except.error e) :
    (process_batch env batch g ps).2 =
      ps ++ batch.map (fun b => { b.2.1 with error := some e }) ∧
    (∀ b ∈ batch, b.2.2.1 < ny → b.2.2.2 < nx →
      cellValue (process_batch env batch g ps).1 b.2.2.1 b.2.2.2 = some none) := by
  cases batch with
  | nil => exact absurd rfl hne
  | cons b0 rest =>
    rw [process_batch, hrp]
    exact ⟨markErrors_snd e _ _ _,
      fun b hb hr hc => markErrors_cells_missing e _ _ _ hd b hb hr hc⟩

theorem C5_flush_failure_marks_whole_batch_witness :
    (process_batch envPredictFailAtOne
      [(0, { x := 0, y := 0, wavelengths := some [1], intensities := some [1] }, 0, 0),
       (1, { x := 1, y := 0, wavelengths := some [1], intensities := some [1] }, 0, 1)]
      (initial_grid 2 1) []).2 =
      [] ++ [(0, ({ x := 0, y := 0, wavelengths := some [1], intensities := some [1] } : ScanPoint), 0, 0),
             (1, { x := 1, y := 0, wavelengths := some [1], intensities := some [1] }, 0, 1)].map
        (fun b => { b.2.1 with error := some "inference down" }) := by
  refine (C5_flush_failure_marks_whole_batch envPredictFailAtOne _
    (initial_grid 2 1) [] "inference down" (initial_grid_dims 2 1) ?_ ?_).1
  · exact fun hcon => List.noConfusion hcon
  · decide

theorem colOf_lt (p : ScanParameters) (nx yi xi : Nat) (hxi : xi < nx) :
    colOf p nx yi xi < nx := by
  rw [colOf]
  split
  · omega
  · exact hxi

theorem colOf_inj (p : ScanParameters) (nx yi : Nat) {xi xj : Nat}
    (hxi : xi < nx) (hxj : xj < nx) (hne : xi ≠ xj) :
    colOf p nx yi xi ≠ colOf p nx yi xj := by
  rw [colOf, colOf]
  split
  · omega
  · exact hne

theorem cellValue_setCell_ne (g : List (List (Option ℚ))) (r c r2 c2 : Nat)
    (v : Option ℚ) (h : r2 ≠ r ∨ c2 ≠ c) :
    cellValue (setCell g r2 c2 v) r c = cellValue g r c := by
  by_cases hr : r2 = r
  · subst hr
    have hc : c2 ≠ c := h.resolve_left (fun hcon => hcon rfl)
    by_cases hrg : r2 < g.length
    · rw [cellValue, cellValue, setCell, List.getElem?_set_self hrg,
        List.getElem?_eq_getElem hrg]
      dsimp only
      rw [List.getElem?_set_ne hc, List.getD_eq_getElem g [] hrg]
    · rw [setCell, List.set_eq_of_length_le (by omega)]
  · rw [cellValue, cellValue, setCell, List.getElem?_set_ne hr]

theorem rowIter_map_fst (p : ScanParameters) (xs : List ℚ) (yi : Nat) :
    (rowIter p xs yi).map Prod.fst = List.range' 0 xs.length := by
  rw [rowIter]
  split
  · rw [List.enum_map_fst, List.length_reverse, List.range_eq_range']
  · rw [List.enum_map_fst, List.range_eq_range']

theorem runPredicts_all_ok (env : ScanEnv)
    (hpred : ∀ n, ∃ pc, env.predict n = Except.ok pc) :
    ∀ l, ∃ s, runPredicts env l = Except.ok s
  | [] => ⟨[], rfl⟩
  | (n, pt, a, b) :: rest => by
    rcases runPredicts_all_ok env hpred rest with ⟨tail, htail⟩
    rcases hpred n with ⟨pc, hpc⟩
    rw [runPredicts]
    split
    · rw [hpc, htail]
      exact ⟨(some pc.1, some pc.2) :: tail, rfl⟩
    · rw [htail]
      exact ⟨(none, none) :: tail, rfl⟩

theorem applyScores_fst_frame (rk ck : Nat) :
    ∀ (l : List ((Nat × ScanPoint × Nat × Nat) × (Option ℚ × Option ℚ)))
      (g : List (List (Option ℚ))) (ps : List ScanPoint),
      (∀ q ∈ l, q.1.2.2.1 ≠ rk ∨ q.1.2.2.2 ≠ ck) →
      cellValue (applyScores l g ps).1 rk ck = cellValue g rk ck
  | [], g, ps, h => rfl
  | (b, sc) :: rest, g, ps, h => by
    rw [applyScores]
    rw [applyScores_fst_frame rk ck rest _ _
      (fun q hq => h q (List.mem_cons_of_mem _ hq))]
    exact cellValue_setCell_ne g rk ck b.2.2.1 b.2.2.2 sc.1
      (h (b, sc) (List.mem_cons_self _ _))

theorem process_batch_of_ok (env : ScanEnv)
    (batch : List (Nat × ScanPoint × Nat × Nat))
    (g : List (List (Option ℚ))) (ps : List ScanPoint)
    (scores : List (Option ℚ × Option ℚ))
    (hs : runPredicts env batch = Except.ok scores) :
    process_batch env batch g ps = applyScores (batch.zip scores) g ps := by
  cases batch with
  | nil =>
    rw [runPredicts] at hs
    injection hs with h2
    rw [process_batch, ← h2]
    rfl
  | cons b rest =>
    rw [process_batch, hs]

theorem execCell_singleFail (env : ScanEnv) (p : ScanParameters)
    (nx ny yi : Nat) (y : ℚ) (xi : Nat) (x : ℚ) (st : ExecState)
    (k : Nat) (e : String)
    (hfail : env.acquire k = Except.error e)
    (hacq : ∀ n, n ≠ k → ∃ wi, env.acquire n = Except.ok wi)
    (hpred : ∀ n, ∃ pc, env.predict n = Except.ok pc)
    (hpos : st.completed = yi * nx + xi)
    (hxi : xi < nx)
    (hyi : yi < ny)
    (hnx : 0 < nx)
    (hd : gridDims st.grid ny nx)
    (hinv : singleFailInv k e (k / nx) (colOf p nx (k / nx) (k % nx)) st) :
    gridDims (execCell env p nx ny yi y xi x st).grid ny nx ∧
    singleFailInv k e (k / nx) (colOf p nx (k / nx) (k % nx))
      (execCell env p nx ny yi y xi x st) := by
  obtain ⟨hcount, hfields, hbatch, hcell⟩ := hinv
  by_cases hk : st.completed = k
  · have hdiv : k / nx = yi := by
      rw [← hk, hpos, Nat.mul_comm yi nx, Nat.mul_add_div hnx,
        Nat.div_eq_of_lt hxi, Nat.add_zero]
    have hmod : k % nx = xi := by
      rw [← hk, hpos, Nat.mul_comm yi nx, Nat.mul_add_mod,
        Nat.mod_eq_of_lt hxi]
    rw [if_neg (by omega : ¬ k < st.completed)] at hcount
    rw [execCell, hk, hfail]
    refine ⟨setCell_dims hd _ _ _, ?_, ?_, hbatch, ?_⟩
    · rw [List.filter_append, List.length_append, hcount]
      rw [if_pos (by omega : k < k + 1)]
      simp
    · intro pt hpt herr
      rcases List.mem_append.mp hpt with hold | hnew
      · exact hfields pt hold herr
      · rw [List.mem_singleton.mp hnew]
        exact ⟨rfl, rfl, rfl, rfl, rfl, rfl⟩
    · intro hklt
      rw [hdiv, hmod]
      exact cellValue_setCell_self hd hyi (colOf_lt p nx yi xi hxi) none
  · rcases hacq st.completed hk with ⟨wi, hwi⟩
    have hiff : (if k < st.completed + 1 then 1 else 0) =
        (if k < st.completed then 1 else 0 : Nat) := by
      by_cases hlt : k < st.completed
      · rw [if_pos hlt, if_pos (by omega)]
      · rw [if_neg hlt, if_neg (by omega)]
    have hentry_avoid : yi ≠ k / nx ∨
        colOf p nx yi xi ≠ colOf p nx (k / nx) (k % nx) := by
      by_cases hy : yi = k / nx
      · right
        rw [← hy]
        have hmodlt : k % nx < nx := Nat.mod_lt _ hnx
        have hdm := Nat.div_add_mod k nx
        have hxm : xi ≠ k % nx := by
          intro hcon
          apply hk
          rw [hpos, hcon, hy]
          rw [Nat.mul_comm]
          omega
        exact colOf_inj p nx yi hxi hmodlt hxm
      · left
        exact hy
    rw [execCell, hwi]
    dsimp only
    set entry : Nat × ScanPoint × Nat × Nat :=
      (st.completed,
        ({ x := x, y := y, wavelengths := some wi.1,
           intensities := some wi.2,
           timestamp := some ((st.completed : ℚ)) } : ScanPoint), yi,
        colOf p nx yi xi) with hentry
    have hbatch2 : errorFreeBatch (st.batch ++ [entry])
        (k / nx) (colOf p nx (k / nx) (k % nx)) := by
      intro b hb
      rcases List.mem_append.mp hb with hold | hnew
      · exact hbatch b hold
      · rw [List.mem_singleton.mp hnew, hentry]
        exact ⟨rfl, rfl, rfl, hentry_avoid⟩
    split
    · rcases runPredicts_all_ok env hpred (st.batch ++ [entry])
        with ⟨scores, hsc⟩
      rw [process_batch_of_ok env _ _ _ _ hsc]
      have hpts := applyScores_snd ((st.batch ++ [entry]).zip scores)
        st.grid st.points
      have hnoerr : ∀ q ∈ (st.batch ++ [entry]).zip scores,
          ({ q.1.2.1 with
            purity_score := q.2.1
            confidence := q.2.2 } : ScanPoint).error = none := by
        intro q hq
        have hb := (List.of_mem_zip hq).1
        exact (hbatch2 q.1 hb).1
      have hmain : ∀ (st2 : ExecState),
          st2.grid = (applyScores ((st.batch ++ [entry]).zip scores)
            st.grid st.points).1 →
          st2.points = (applyScores ((st.batch ++ [entry]).zip scores)
            st.grid st.points).2 →
          st2.batch = ([] : List (Nat × ScanPoint × Nat × Nat)) →
          st2.completed = st.completed + 1 →
          gridDims st2.grid ny nx ∧
          singleFailInv k e (k / nx) (colOf p nx (k / nx) (k % nx)) st2 := by
        intro st2 hg2 hp2 hb2 hc2
        refine ⟨?_, ?_, ?_, ?_, ?_⟩
        · rw [hg2]
          exact applyScores_dims _ _ _ hd
        · rw [hp2, hc2, hpts, hiff, List.filter_append, List.length_append,
            hcount]
          have hz : List.filter (fun pt => pt.error.isSome)
              (List.map (fun q => ({ q.1.2.1 with
                purity_score := q.2.1
                confidence := q.2.2 } : ScanPoint))
                ((st.batch ++ [entry]).zip scores)) = [] := by
            rw [List.filter_eq_nil_iff]
            intro a ha
            rcases List.mem_map.mp ha with ⟨q, hq, hqe⟩
            rw [← hqe]
            simpa using hnoerr q hq
          rw [hz]
          simp
        · intro pt hpt herr
          rw [hp2, hpts] at hpt
          rcases List.mem_append.mp hpt with hold | hnew
          · exact hfields pt hold herr
          · rcases List.mem_map.mp hnew with ⟨q, hq, hqe⟩
            rw [← hqe] at herr
            rw [show ({ q.1.2.1 with
              purity_score := q.2.1
              confidence := q.2.2 } : ScanPoint).error = q.1.2.1.error from rfl,
              hnoerr q hq] at herr
            exact absurd herr (by simp)
        · rw [hb2]
          intro b hb
          exact absurd hb (List.not_mem_nil b)
        · intro hklt
          rw [hc2] at hklt
          have hklt2 : k < st.completed := by omega
          rw [hg2, applyScores_fst_frame _ _ _ _ _ ?havoid]
          · exact hcell hklt2
          · intro q hq
            exact ((hbatch2 q.1 (List.of_mem_zip hq).1).2.2.2)
      split
      · exact hmain _ rfl rfl rfl rfl
      · exact hmain _ rfl rfl rfl rfl
    · have hmain2 : ∀ (st2 : ExecState),
          st2.grid = st.grid →
          st2.points = st.points →
          st2.batch = st.batch ++ [entry] →
          st2.completed = st.completed + 1 →
          gridDims st2.grid ny nx ∧
          singleFailInv k e (k / nx) (colOf p nx (k / nx) (k % nx)) st2 := by
        intro st2 hg2 hp2 hb2 hc2
        refine ⟨?_, ?_, ?_, ?_, ?_⟩
        · rw [hg2]
          exact hd
        · rw [hp2, hc2, hiff]
          exact hcount
        · intro pt hpt herr
          rw [hp2] at hpt
          exact hfields pt hpt herr
        · rw [hb2]
          exact hbatch2
        · intro hklt
          rw [hc2] at hklt
          rw [hg2]
          exact hcell (by omega)
      split
      · exact hmain2 _ rfl rfl rfl rfl
      · exact hmain2 _ rfl rfl rfl rfl

theorem execRow_singleFail (env : ScanEnv) (p : ScanParameters)
    (nx ny yi : Nat) (y : ℚ) (k : Nat) (e : String)
    (hfail : env.acquire k = Except.error e)
    (hacq : ∀ n, n ≠ k → ∃ wi, env.acquire n = Except.ok wi)
    (hpred : ∀ n, ∃ pc, env.predict n = Except.ok pc)
    (hyi : yi < ny) (hnx : 0 < nx) :
    ∀ (cells : List (Nat × ℚ)) (j : Nat) (st : ExecState),
      cells.map Prod.fst = List.range' j cells.length →
      j + cells.length = nx →
      st.completed = yi * nx + j →
      gridDims st.grid ny nx →
      singleFailInv k e (k / nx) (colOf p nx (k / nx) (k % nx)) st →
      gridDims (execRow env p nx ny yi y cells st).grid ny nx ∧
      singleFailInv k e (k / nx) (colOf p nx (k / nx) (k % nx))
        (execRow env p nx ny yi y cells st)
  | [], j, st, hmap, hlen, hcomp, hd, hinv => ⟨hd, hinv⟩
  | (xi, x) :: rest, j, st, hmap, hlen, hcomp, hd, hinv => by
    rw [List.map_cons, List.length_cons,
      show List.range' j (rest.length + 1) =
        j :: List.range' (j + 1) rest.length from rfl] at hmap
    injection hmap with h1 h2
    subst h1
    rw [List.length_cons] at hlen
    have hxilt : xi < nx := by omega
    rcases execCell_singleFail env p nx ny yi y xi x st k e hfail hacq hpred
      hcomp hxilt hyi hnx hd hinv with ⟨hd2, hinv2⟩
    rw [execRow]
    exact execRow_singleFail env p nx ny yi y k e hfail hacq hpred hyi hnx
      rest (xi + 1) _ h2 (by omega)
      (by rw [execCell_completed, hcomp, Nat.add_assoc]) hd2 hinv2

theorem execRows_singleFail (env : ScanEnv) (p : ScanParameters)
    (xs : List ℚ) (nx ny : Nat) (k : Nat) (e : String)
    (hfail : env.acquire k = Except.error e)
    (hacq : ∀ n, n ≠ k → ∃ wi, env.acquire n = Except.ok wi)
    (hpred : ∀ n, ∃ pc, env.predict n = Except.ok pc)
    (hnc : ∀ n, env.cancel_at_check n = false)
    (hnx : 0 < nx) (hxs : xs.length = nx) :
    ∀ (ytail : List ℚ) (r0 : Nat) (st : ExecState),
      r0 + ytail.length = ny →
      st.completed = r0 * nx →
      gridDims st.grid ny nx →
      singleFailInv k e (k / nx) (colOf p nx (k / nx) (k % nx)) st →
      gridDims (execRows env p xs nx ny (List.enumFrom r0 ytail) st).grid ny nx ∧
      singleFailInv k e (k / nx) (colOf p nx (k / nx) (k % nx))
        (execRows env p xs nx ny (List.enumFrom r0 ytail) st)
  | [], r0, st, hny, hcomp, hd, hinv => by
    rw [List.enumFrom, execRows]
    exact ⟨hd, hinv⟩
  | y :: ytl, r0, st, hny, hcomp, hd, hinv => by
    rw [List.enumFrom, execRows, hnc st.completed]
    simp only [Bool.false_eq_true, if_false]
    rw [List.length_cons] at hny
    have hr0 : r0 < ny := by omega
    rcases execRow_singleFail env p nx ny r0 y k e hfail hacq hpred hr0 hnx
      (rowIter p xs r0) 0 st
      (by rw [rowIter_map_fst, rowIter_length, hxs])
      (by rw [rowIter_length, hxs, Nat.zero_add])
      (by rw [hcomp, Nat.add_zero]) hd hinv with ⟨hd2, hinv2⟩
    exact execRows_singleFail env p xs nx ny k e hfail hacq hpred hnc hnx hxs
      ytl (r0 + 1) _ (by omega)
      (by rw [execRow_completed, rowIter_length, hxs, hcomp, Nat.add_one_mul])
      hd2 hinv2

/-- C6: a stage-motion or acquisition exception at a single cell is caught
at the cell level: the scan still finalizes with status COMPLETED and
completed_points = total_points (the cell is counted exactly once and
traversal continues), exactly one point of the result carries an error, that
point carries only coordinates, the error message and the visit timestamp
(no score, no spectra), and the failed cell's grid entry is the NaN missing
sentinel. -/
theorem C6_single_cell_failure_isolated (env : ScanEnv) (o : Orchestrator)
    (p : ScanParameters) (r : ScanResult) (k : Nat) (e : String)
    (hfail : env.acquire k = Except.error e)
    (hacq : ∀ n, n ≠ k → ∃ wi, env.acquire n = Except.ok wi)
    (hpred : ∀ n, ∃ pc, env.predict n = Except.ok pc)
    (hnc : ∀ n, env.cancel_at_check n = false)
    (h : (start_scan env o p).2 = Except.ok r)
    (hk : k < r.total_points) :
    r.status = ScanStatus.COMPLETED ∧
    r.completed_points = r.total_points ∧
    (r.points.filter (fun pt => pt.error.isSome)).length = 1 ∧
    (∀ pt ∈ r.points, pt.error.isSome = true →
      pt.error = some e ∧ pt.purity_score = none ∧ pt.confidence = none ∧
      pt.wavelengths = none ∧ pt.intensities = none ∧
      pt.timestamp = some ((k : ℚ))) ∧
    cellValue r.grid (k / r.x_positions.length)
      (colOf p r.x_positions.length (k / r.x_positions.length)
        (k % r.x_positions.length)) = some none := by
  obtain ⟨hst, hv, hp, hpar, hx, hy, htot, hstat, hend, hfin⟩ :=
    start_scan_ok_elim env o p r h
  obtain ⟨hg, hpts, hcomp⟩ := hfin
  obtain ⟨hxe, hye, hsx, hsy⟩ := validate_ok_bounds env.limits p hv
  have hnx : 0 < (arange p.x_start (qAdd p.x_end eps) p.step_x).length := by
    rw [arange_length]
    exact arangeLen_pos _ _ _ hxe hsx
  have hcfin := execRows_completed_nocancel env p
    (arange p.x_start (qAdd p.x_end eps) p.step_x)
    (arange p.x_start (qAdd p.x_end eps) p.step_x).length
    (arange p.y_start (qAdd p.y_end eps) p.step_y).length hnc
    (arange p.y_start (qAdd p.y_end eps) p.step_y).enum
    (initState (arange p.x_start (qAdd p.x_end eps) p.step_x).length
      (arange p.y_start (qAdd p.y_end eps) p.step_y).length)
  rw [List.enum_length] at hcfin
  have hcompleted : r.completed_points = r.total_points := by
    rw [hcomp, htot, hcfin]
    have h0 : (initState (arange p.x_start (qAdd p.x_end eps) p.step_x).length
        (arange p.y_start (qAdd p.y_end eps) p.step_y).length).completed = 0 := rfl
    rw [h0, Nat.zero_add, Nat.mul_comm]
  have hrun := execRows_singleFail env p
    (arange p.x_start (qAdd p.x_end eps) p.step_x)
    (arange p.x_start (qAdd p.x_end eps) p.step_x).length
    (arange p.y_start (qAdd p.y_end eps) p.step_y).length k e
    hfail hacq hpred hnc hnx rfl
    (arange p.y_start (qAdd p.y_end eps) p.step_y) 0
    (initState (arange p.x_start (qAdd p.x_end eps) p.step_x).length
      (arange p.y_start (qAdd p.y_end eps) p.step_y).length)
    (by rw [Nat.zero_add])
    (by simp [initState])
    (initial_grid_dims _ _)
    (by
      refine ⟨?_, ?_, ?_, ?_⟩
      · rw [if_neg (by simp [initState])]
        rfl
      · intro pt hpt herr
        exact absurd hpt (List.not_mem_nil pt)
      · intro b hb
        exact absurd hb (List.not_mem_nil b)
      · intro hklt
        exact absurd hklt (by simp [initState]))
  obtain ⟨hdfin, hcnt, hflds, hbat, hcel⟩ := hrun
  have hklt : k < (execRows env p
      (arange p.x_start (qAdd p.x_end eps) p.step_x)
      (arange p.x_start (qAdd p.x_end eps) p.step_x).length
      (arange p.y_start (qAdd p.y_end eps) p.step_y).length
      (List.enumFrom 0 (arange p.y_start (qAdd p.y_end eps) p.step_y))
      (initState (arange p.x_start (qAdd p.x_end eps) p.step_x).length
        (arange p.y_start (qAdd p.y_end eps) p.step_y).length)).completed := by
    have : r.completed_points = (execRows env p
        (arange p.x_start (qAdd p.x_end eps) p.step_x)
        (arange p.x_start (qAdd p.x_end eps) p.step_x).length
        (arange p.y_start (qAdd p.y_end eps) p.step_y).length
        (List.enumFrom 0 (arange p.y_start (qAdd p.y_end eps) p.step_y))
        (initState (arange p.x_start (qAdd p.x_end eps) p.step_x).length
          (arange p.y_start (qAdd p.y_end eps) p.step_y).length)).completed :=
      hcomp
    rw [← this, hcompleted]
    exact hk
  refine ⟨hstat, hcompleted, ?_, ?_, ?_⟩
  · rw [hpts, show (arange p.y_start (qAdd p.y_end eps) p.step_y).enum =
      List.enumFrom 0 (arange p.y_start (qAdd p.y_end eps) p.step_y) from rfl,
      hcnt, if_pos hklt]
  · intro pt hpt herr
    rw [hpts] at hpt
    exact hflds pt hpt herr
  · rw [hg, hx]
    exact hcel hklt

theorem C6_single_cell_failure_isolated_witness :
    ∃ r, (start_scan envAcquireFailAtTwo idleOrch pTwoByTwo).2 = Except.ok r ∧
      r.status = ScanStatus.COMPLETED ∧
      r.completed_points = r.total_points ∧
      (r.points.filter (fun pt => pt.error.isSome)).length = 1 := by
  have hs : ((start_scan envAcquireFailAtTwo idleOrch pTwoByTwo).2.toOption.isSome)
      = true := by decide
  have hok := except_eq_ok_of_isSome _ hs
  have hacq : ∀ n, n ≠ 2 → ∃ wi, envAcquireFailAtTwo.acquire n = Except.ok wi := by
    intro n hn
    refine ⟨([(n : ℚ)], [(n : ℚ)]), ?_⟩
    show (if n = 2 then Except.error "acquisition timeout"
      else Except.ok ([(n : ℚ)], [(n : ℚ)])) = Except.ok ([(n : ℚ)], [(n : ℚ)])
    rw [if_neg hn]
  have hpred : ∀ n, ∃ pc, envAcquireFailAtTwo.predict n = Except.ok pc :=
    fun n => ⟨(80 + (n : ℚ), mkRat 9 10), rfl⟩
  have htot4 : ((start_scan envAcquireFailAtTwo idleOrch pTwoByTwo).2.toOption.map
      (fun r2 => r2.total_points)) = some 4 := by decide
  have hk : 2 < ((start_scan envAcquireFailAtTwo idleOrch pTwoByTwo).2.toOption.get
      hs).total_points := by
    rw [← Option.some_get hs, Option.map_some'] at htot4
    have h4 := Option.some.inj htot4
    omega
  have hc := C6_single_cell_failure_isolated envAcquireFailAtTwo idleOrch
    pTwoByTwo _ 2 "acquisition timeout" (by decide) hacq hpred (fun n => rfl)
    hok hk
  exact ⟨_, hok, hc.1, hc.2.1, hc.2.2.1⟩

/-! ### Concrete scenario evaluations -/

/-- C1: cancel_scan is called while the scan is RUNNING (its flag becomes
observable after the first of two points), yet the ScanResult returned by
the in-flight start_scan carries status COMPLETED, not CANCELLED: line 166
of the source overwrites the CANCELLED status unconditionally, contradicting
both the claim and the repository test test_scan_cancellation, which awaits
the in-flight start_scan and asserts status CANCELLED.  The partial-result
clauses hold: one gathered point is retained and an end_time is set. -/
theorem C1_cancelled_scan_reports_completed :
    ((start_scan envCancelAfterOne idleOrch pOneByTwo).2.toOption.map
      (fun r => (r.completed_points, r.total_points, r.status,
        r.end_time.isSome, r.points.length))) =
      some (1, 2, ScanStatus.COMPLETED, true, 1) ∧
    envCancelAfterOne.cancel_at_check 1 = true := by
  constructor
  · decide
  · decide

/-- C2, counterexample: on a single row of two cells, the cancellation flag
is already set once one point has completed, yet the traversal still
processes the second cell of the row: completed_points reaches 2, because
the source checks the pause and cancel flags only before each row, not
before each cell. -/
theorem C2_counterexample_midrow_cancel :
    ((start_scan envCancelMidRow idleOrch pTwoByOne).2.toOption.map
      (fun r => (r.completed_points, r.total_points))) = some (2, 2) ∧
    envCancelMidRow.cancel_at_check 1 = true := by
  constructor
  · decide
  · decide

/-- C3, counterexample: parameters accepted by validation (x spanning one
and a half steps) produce 2 x 2 = 4 grid points, while the formula of the
claim, ceil ((x_end - x_start) / step_x + 1) times its y analogue, gives
3 x 2 = 6. -/
theorem C3_counterexample_total_points :
    validate_scan_parameters okEnv.limits pFractionalX = Except.ok () ∧
    ((start_scan okEnv idleOrch pFractionalX).2.toOption.map
      (fun r => r.total_points)) = some 4 ∧
    specClaimedTotalPoints pFractionalX = 6 := by
  refine ⟨by decide, by decide, ?_⟩
  have h32 : (mkRat 3 2 : ℚ) = 3 / 2 := by
    rw [Rat.mkRat_eq_div]
    norm_num
  have hc : (⌈(5 : ℚ) / 2⌉ : ℤ) = 3 := by
    rw [Int.ceil_eq_iff]
    norm_num
  rw [specClaimedTotalPoints]
  norm_num [pFractionalX, h32]
  rw [hc]
  rfl

/-- C4, counterexample: with batch_size 2 on a single row of two cells,
acquisition fails at the second (last) cell, so the flush check is skipped
and the point buffered for the first cell is never appended: the scan ends
COMPLETED with completed_points 2 but a points list of length 1. -/
theorem C4_counterexample_lost_buffered_point :
    ((start_scan envAcquireFailAtOne idleOrch pTwoByOneBatchTwo).2.toOption.map
      (fun r => (r.completed_points, r.points.length, r.status))) =
      some (2, 1, ScanStatus.COMPLETED) := by
  decide

/-- C5, counterexample: in a flushed batch of two points, predict raises
only for the second point, yet both points are marked with that same error
and neither receives a purity_score: the source has no per-point handler
around the predict call, so the first exception reaches the flush-level
handler which marks the whole batch. -/
theorem C5_counterexample_single_predict_failure_marks_batch :
    envPredictFailAtOne.predict 0 = Except.ok (85, mkRat 9 10) ∧
    envPredictFailAtOne.predict 1 = Except.error "inference down" ∧
    ((start_scan envPredictFailAtOne idleOrch pTwoByOneBatchTwo).2.toOption.map
      (fun r => r.points.map (fun pt => (pt.error, pt.purity_score, pt.confidence)))) =
      some [(some "inference down", none, none),
            (some "inference down", none, none)] := by
  refine ⟨by decide, by decide, by decide⟩

/-- C7: start_scan fails immediately with no state change whenever the
status is not IDLE or validation rejects the parameters: the returned
orchestrator is the input one, no ScanResult is created, and the rejection
reason is the distinct message of the violated constraint; in particular
inverted x bounds yield exactly the message of scenario D. -/
theorem C7_start_scan_rejection (env : ScanEnv) (o : Orchestrator)
    (p : ScanParameters) :
    (o.status ≠ ScanStatus.IDLE →
      start_scan env o p =
        (o, Except.error "Cannot start scan: current status is not idle")) ∧
    (∀ e, o.status = ScanStatus.IDLE →
      validate_scan_parameters env.limits p = Except.error e →
      start_scan env o p = (o, Except.error e)) ∧
    (p.x_start ≥ p.x_end →
      validate_scan_parameters env.limits p =
        Except.error "x_start must be less than x_end") := by
  refine ⟨?_, ?_, ?_⟩
  · intro h
    rw [start_scan, if_pos h]
  · intro e ho hv
    rw [start_scan, if_neg (by simp [ho]), hv]
  · intro h
    rw [validate_scan_parameters, if_pos h]

theorem C7_start_scan_rejection_witness :
    start_scan okEnv runningOrch pTwoByOne =
      (runningOrch, Except.error "Cannot start scan: current status is not idle") ∧
    validate_scan_parameters okEnv.limits pInvertedX =
      Except.error "x_start must be less than x_end" :=
  ⟨(C7_start_scan_rejection okEnv runningOrch pTwoByOne).1 (by decide),
   (C7_start_scan_rejection okEnv idleOrch pInvertedX).2.2 (by decide)⟩

/-- C8: with serpentine enabled, an even row r and the odd row r + 1 store
to exactly the same columns, namely every column below nx, and the x
coordinate stored at column c is xs[c] in both rows: the mirrored storage
index nx - 1 - xi on reversed rows preserves axis alignment. -/
theorem C8_serpentine_column_alignment (p : ScanParameters) (xs : List ℚ)
    (r : Nat) (hs : p.serpentine = true) (hr : r % 2 = 0) :
    (∀ c x, (c, x) ∈ rowColX p xs r ↔
      ∃ h : c < xs.length, xs.get ⟨c, h⟩ = x) ∧
    (∀ c x, (c, x) ∈ rowColX p xs (r + 1) ↔
      ∃ h : c < xs.length, xs.get ⟨c, h⟩ = x) := by
  have hbeq : (r % 2 == 1) = false := by
    simp [hr]
  have hmod : (r + 1) % 2 = 1 := by
    omega
  have hbeq1 : ((r + 1) % 2 == 1) = true := by
    simp [hmod]
  constructor
  · intro c x
    simp only [rowColX, rowIter, colOf, hs, hbeq, Bool.true_and, Bool.false_eq_true,
      if_false, Prod.mk.eta, List.map_id_fun, id, List.map_id, List.map_id']
    rw [List.mk_mem_enum_iff_getElem?]
    simp only [List.getElem?_eq_some, List.get_eq_getElem]
  · intro c x
    simp only [rowColX, rowIter, colOf, hs, hbeq1, Bool.true_and, if_true]
    constructor
    · intro hm
      rcases List.mem_map.mp hm with ⟨q, hq, hqe⟩
      obtain ⟨i, xv⟩ := q
      rw [List.mk_mem_enum_iff_getElem?] at hq
      rcases List.getElem?_eq_some.mp hq with ⟨hi, hxv⟩
      have hil : i < xs.length := by
        simpa using hi
      cases hqe
      have hcb : xs.length - 1 - i < xs.length := by
        omega
      refine ⟨hcb, ?_⟩
      rw [List.get_eq_getElem, ← hxv, List.getElem_reverse]
    · intro hex
      rcases hex with ⟨hcb, hx⟩
      refine List.mem_map.mpr ⟨(xs.length - 1 - c, x), ?_, ?_⟩
      · rw [List.mk_mem_enum_iff_getElem?]
        refine List.getElem?_eq_some.mpr
          ⟨by simpa using (by omega : xs.length - 1 - c < xs.length), ?_⟩
        rw [List.getElem_reverse]
        have hidx : xs.length - 1 - (xs.length - 1 - c) = c := by
          omega
        simp only [hidx]
        simpa using hx
      · have hidx : xs.length - 1 - (xs.length - 1 - c) = c := by
          omega
        simp only [hidx]

theorem C8_serpentine_column_alignment_witness :
    ((0, (0 : ℚ)) ∈ rowColX pTwoByTwo [0, 1] 0 ∧ (1, (1 : ℚ)) ∈ rowColX pTwoByTwo [0, 1] 0) ∧
    ((0, (0 : ℚ)) ∈ rowColX pTwoByTwo [0, 1] 1 ∧ (1, (1 : ℚ)) ∈ rowColX pTwoByTwo [0, 1] 1) := by
  have h := C8_serpentine_column_alignment pTwoByTwo [0, 1] 0 (by decide) (by decide)
  exact ⟨⟨(h.1 0 0).mpr ⟨by decide, rfl⟩, (h.1 1 1).mpr ⟨by decide, rfl⟩⟩,
    ⟨(h.2 0 0).mpr ⟨by decide, rfl⟩, (h.2 1 1).mpr ⟨by decide, rfl⟩⟩⟩

/-- C10: the status and result queries pass the orchestrator through
unchanged (they never mutate), a start_scan that returns a result leaves
that result installed as current_scan with the orchestrator back at IDLE
(so a finished result stays queryable), a rejected start_scan leaves
current_scan untouched, and the lifecycle operations are no-ops at IDLE, so
only an accepted start_scan replaces the stored result. -/
theorem C10_result_persistence (env : ScanEnv) (o : Orchestrator)
    (p : ScanParameters) (t now : ℚ) :
    (get_current_result o).2 = o ∧
    (get_scan_status now o).2 = o ∧
    (get_current_result o).1 = o.current_scan ∧
    ((start_scan env o p).2.toOption.isSome →
      ((start_scan env o p).1.current_scan = (start_scan env o p).2.toOption ∧
       (start_scan env o p).1.status = ScanStatus.IDLE)) ∧
    (o.status ≠ ScanStatus.IDLE → (start_scan env o p).1 = o) ∧
    (∀ e, o.status = ScanStatus.IDLE →
      validate_scan_parameters env.limits p = Except.error e →
      (start_scan env o p).1 = o) ∧
    (o.status = ScanStatus.IDLE →
      cancel_scan t o = o ∧ pause_scan o = o ∧ resume_scan o = o) := by
  refine ⟨rfl, ?_, rfl, ?_, ?_, ?_, ?_⟩
  · cases h : o.current_scan <;> simp [get_scan_status, h]
  · rw [start_scan]
    by_cases hst : o.status = ScanStatus.IDLE
    · rw [if_neg (by simp [hst])]
      cases hv : validate_scan_parameters env.limits p with
      | error e =>
        intro h
        simp [Except.toOption] at h
      | ok u =>
        cases hp : env.prepare_error with
        | some e =>
          intro h
          simp [Except.toOption] at h
        | none =>
          intro h
          exact ⟨rfl, rfl⟩
    · rw [if_pos hst]
      intro h
      simp [Except.toOption] at h
  · intro h
    rw [start_scan, if_pos h]
  · intro e ho hv
    rw [start_scan, if_neg (by simp [ho]), hv]
  · intro h
    refine ⟨?_, ?_, ?_⟩
    · rw [cancel_scan, if_neg (by simp [h])]
    · rw [pause_scan, if_neg (by simp [h])]
    · rw [resume_scan, if_neg (by simp [h])]

theorem C10_result_persistence_witness :
    ((start_scan okEnv idleOrch pTwoByOne).1.current_scan =
      (start_scan okEnv idleOrch pTwoByOne).2.toOption ∧
     (start_scan okEnv idleOrch pTwoByOne).1.status = ScanStatus.IDLE) ∧
    (start_scan okEnv runningOrch pTwoByOne).1 = runningOrch ∧
    (cancel_scan 0 idleOrch = idleOrch ∧ pause_scan idleOrch = idleOrch ∧
      resume_scan idleOrch = idleOrch) :=
  ⟨(C10_result_persistence okEnv idleOrch pTwoByOne 0 0).2.2.2.1 (by decide),
   (C10_result_persistence okEnv runningOrch pTwoByOne 0 0).2.2.2.2.1 (by decide),
   (C10_result_persistence okEnv idleOrch pTwoByOne 0 0).2.2.2.2.2.2 rfl⟩

set_option maxRecDepth 40000 in
/-- C9, counterexample: a fault-free 21-point scan emits 21 throttled
progress notifications (the modulus max 1 (21 / 20) is 1, so every point
notifies), exceeding the claimed bound of 20 for the throttling rule; the
final unconditional notification brings the total for the call to 22. -/
theorem C9_counterexample_twentyone_points :
    throttledNotifications okEnv pTwentyOne = 21 ∧
    scanNotifications okEnv idleOrch pTwentyOne = 22 ∧
    ((start_scan okEnv idleOrch pTwentyOne).2.toOption.map
      (fun r => r.total_points)) = some 21 := by
  refine ⟨by decide, by decide, by decide⟩

end PurityScanner
